import Mathlib

/-!
Verification of the pyergonomics core against its specification.

The development shallowly embeds the relevant parts of the source:

* `src/pyergonomics/tracker.py` — the track store (`Tracker`): a polars
  dataframe is modelled as a `List Row`; a tracker whose tracking file was
  absent has `df = None`, modelled as `Option`.
* `src/pyergonomics/pose_assessment.py` — `make_pose_assessment`, over real
  numbers (the exact reading of the float code).
* `src/pyergonomics/importers/zed.py` — `_create_floor_transform`.
* `dev/ui/zed/zed_body_tracker.py` — `rotation_matrix_to_quaternion`.

Machine floats are read as exact reals.  Python exceptions are modelled with
`Except`/outcome pairs; an operation that mutates `self.df` only after its
checks is modelled by a function returning the new state together with an
optional raised error.
-/

namespace Pyerg

/-- 3D position of one keypoint (real-valued reading of the float data). -/
structure Vec3 where
  x : ℝ
  y : ℝ
  z : ℝ

/-- The `keypoints_3d` payload of one row: the per-joint position array. -/
abbrev KP := List Vec3

/-- One row of the tracking dataframe: `(frame, person, keypoints_3d)`.
Other optional columns (bounding box, quaternions, confidence) play no role
in the claims and are omitted. -/
structure Row where
  frame : Int
  person : Int
  keypoints3d : Option KP

/-- The polars dataframe backing a tracker: a finite sequence of rows. -/
abbrev Df := List Row

/-- Tracker state.  `Tracker.__init__` sets `self.df = None` when the
tracking file does not exist; otherwise the parquet rows are loaded. -/
abbrev Tracker := Option Df

/-- `MergeOverlapError` from `tracker.py` (the spec calls it
`IdentityConflictError`). -/
structure MergeOverlapError where
  deriving DecidableEq

/-- `Tracker.remove_persons`: returns immediately when `df is None`,
otherwise keeps the rows whose person id is not in `person_ids`
(`self.df.filter(~pl.col("person").is_in(person_ids))`). -/
def Tracker.remove_persons (t : Tracker) (personIds : List Int) : Tracker :=
  match t with
  | none => none
  | some df => some (df.filter (fun r => !(personIds.contains r.person)))

/-- Number of rows of `rows` having frame `f` — the `len` of frame `f`'s
group in `subset.group_by("frame").len()`. -/
def frameLen (rows : List Row) (f : Int) : Nat :=
  (rows.filter (fun r => r.frame == f)).length

/-- `not overlap.is_empty()` in `merge_persons`: some frame number occurs in
more than one row of `rows`. -/
def hasFrameOverlap (rows : List Row) : Bool :=
  rows.any (fun r => decide (1 < frameLen rows r.frame))

/-- The relabeling step of `merge_persons`
(`pl.when(person ∈ source_ids).then(target_id).otherwise(person)`). -/
def relabel (df : Df) (targetId : Int) (sourceIds : List Int) : Df :=
  df.map (fun r =>
    if sourceIds.contains r.person then { r with person := targetId } else r)

/-- `Tracker.merge_persons`.  The python method mutates `self.df` only after
the overlap check; raising `MergeOverlapError` leaves `self.df` untouched.
We model it as a state transformer returning the resulting tracker state
together with the raised error, if any. -/
def Tracker.merge_persons (t : Tracker) (targetId : Int) (sourceIds : List Int) :
    Tracker × Option MergeOverlapError :=
  match t with
  | none => (none, none)
  | some df =>
    let involved := targetId :: sourceIds
    let subset := df.filter (fun r => involved.contains r.person)
    if hasFrameOverlap subset then
      (some df, some ⟨⟩)
    else
      (some (relabel df targetId sourceIds), none)

/-- `Tracker.get_person_ids`: `[]` when `df is None`, otherwise the unique
person ids sorted ascending (`self.df["person"].unique().sort().to_list()`;
on integers every sort yields the same list). -/
def Tracker.get_person_ids (t : Tracker) : List Int :=
  match t with
  | none => []
  | some df => List.insertionSort (· ≤ ·) (df.map Row.person).dedup

/-- The event-accumulation loop of `Tracker.get_events_for_person`, carrying
`start_frame` and `end_frame` through the remaining sorted frames. -/
def eventsLoop (frames : List Int) (startFrame endFrame : Int) : List (Int × Int) :=
  match frames with
  | [] => [(startFrame, endFrame)]
  | f :: rest =>
    if f == endFrame + 1 then
      eventsLoop rest startFrame f
    else
      (startFrame, endFrame) :: eventsLoop rest f f

/-- `Tracker.get_events_for_person`: sort the person's frames ascending and
fold them into maximal `[start, end]` ranges. -/
def Tracker.get_events_for_person (t : Tracker) (personId : Int) : List (Int × Int) :=
  match t with
  | none => []
  | some df =>
    match List.insertionSort (· ≤ ·)
        ((df.filter (fun r => r.person == personId)).map Row.frame) with
    | [] => []
    | f :: rest => eventsLoop rest f f

/-- `Tracker.get_keypoints_at_frame`: `{}` when `df is None`; otherwise the
dictionary person ↦ keypoints over the rows at `frame` whose `keypoints_3d`
is not null (modelled as an association list). -/
def Tracker.get_keypoints_at_frame (t : Tracker) (frame : Int) : List (Int × KP) :=
  match t with
  | none => []
  | some df =>
    (df.filter (fun r => r.frame == frame)).filterMap
      (fun r => r.keypoints3d.map (fun k => (r.person, k)))

/-- The frame numbers of the rows belonging to `personId`. -/
def framesOf (df : Df) (personId : Int) : List Int :=
  (df.filter (fun r => r.person == personId)).map Row.frame

/-- Row count of a person id (`count(id)` in the spec). -/
def countPerson (df : Df) (personId : Int) : Nat :=
  (df.filter (fun r => r.person == personId)).length

/-- The store invariant: at most one sample per (frame, person) pair. -/
def UniqueFramePerson (df : Df) : Prop :=
  df.Pairwise (fun r1 r2 => ¬ (r1.frame = r2.frame ∧ r1.person = r2.person))

/-- The invariant lifted to a tracker state (trivially true with no data). -/
def TrackerInv (t : Tracker) : Prop :=
  match t with
  | none => True
  | some df => UniqueFramePerson df

/-! ### Helper lemmas about the overlap check -/

theorem pairwise_filter_bool {α : Type _} {R : α → α → Prop} (p : α → Bool) (l : List α) :
    List.Pairwise R (l.filter p) ↔
      List.Pairwise (fun a b => p a = true → p b = true → R a b) l := by
  induction l with
  | nil => simp
  | cons a l ih =>
    cases hpa : p a with
    | true =>
      rw [List.filter_cons, hpa, if_pos rfl, List.pairwise_cons, List.pairwise_cons, ih]
      constructor
      · rintro ⟨h1, h2⟩
        exact ⟨fun b hb _ hpb => h1 b (List.mem_filter.mpr ⟨hb, hpb⟩), h2⟩
      · rintro ⟨h1, h2⟩
        refine ⟨fun b hb => ?_, h2⟩
        obtain ⟨hbl, hpb⟩ := List.mem_filter.mp hb
        exact h1 b hbl hpa hpb
    | false =>
      rw [List.filter_cons, hpa]
      simp only [Bool.false_eq_true, if_false]
      rw [List.pairwise_cons, ih]
      constructor
      · intro h2
        refine ⟨fun b _ hpa2 => ?_, h2⟩
        rw [hpa] at hpa2
        cases hpa2
      · rintro ⟨_, h2⟩
        exact h2

theorem two_le_length_of_mem_ne {α : Type _} {a b : α} {l : List α}
    (ha : a ∈ l) (hb : b ∈ l) (hne : a ≠ b) : 2 ≤ l.length := by
  induction l with
  | nil => cases ha
  | cons x xs ih =>
    rcases List.mem_cons.mp ha with rfl | ha2
    · rcases List.mem_cons.mp hb with rfl | hb2
      · exact absurd rfl hne
      · have := List.length_pos_of_mem hb2
        simp only [List.length_cons]
        omega
    · rcases List.mem_cons.mp hb with rfl | hb2
      · have := List.length_pos_of_mem ha2
        simp only [List.length_cons]
        omega
      · have := ih ha2 hb2
        simp only [List.length_cons]
        omega

theorem count_frame_map (rows : List Row) (f : Int) :
    List.count f (rows.map Row.frame) = frameLen rows f := by
  rw [List.count_eq_countP, List.countP_map, frameLen, ← List.countP_eq_length_filter]
  rfl

/-- The overlap check of `merge_persons` passes exactly when no two rows of
the subset share a frame number. -/
theorem hasFrameOverlap_eq_false_iff (rows : List Row) :
    hasFrameOverlap rows = false ↔
      List.Pairwise (fun r1 r2 => r1.frame ≠ r2.frame) rows := by
  have hmap : List.Pairwise (fun r1 r2 : Row => r1.frame ≠ r2.frame) rows ↔
      (rows.map Row.frame).Nodup := by
    simp [List.Nodup, List.pairwise_map]
  rw [hmap, List.nodup_iff_count_le_one, hasFrameOverlap, List.any_eq_false]
  constructor
  · intro h a
    by_cases ha : a ∈ rows.map Row.frame
    · obtain ⟨r, hr, hra⟩ := List.mem_map.mp ha
      have h2 := h r hr
      rw [decide_eq_true_iff] at h2
      rw [hra] at h2
      rw [count_frame_map]
      omega
    · rw [List.count_eq_zero_of_not_mem ha]
      omega
  · intro h r hr
    rw [decide_eq_true_iff]
    have h2 := h r.frame
    rw [count_frame_map] at h2
    omega

/-! ### C10 — the no-data tracker -/

/-- C10: on a tracker constructed with no data (`df is None`), every read
accessor returns an empty collection and every mutating operation returns
without effect and without raising. -/
theorem no_data_tracker_total (personIds : List Int) (personId frame targetId : Int)
    (sourceIds : List Int) :
    Tracker.get_person_ids none = [] ∧
    Tracker.get_events_for_person none personId = [] ∧
    Tracker.get_keypoints_at_frame none frame = [] ∧
    Tracker.remove_persons none personIds = none ∧
    Tracker.merge_persons none targetId sourceIds = (none, none) :=
  ⟨rfl, rfl, rfl, rfl, rfl⟩

/-! ### C1 — overlapping merge raises and leaves the store unchanged -/

/-- C1: when some frame occurs in the samples of two distinct involved ids
(target plus sources), `merge_persons` raises `MergeOverlapError` and the
store's contents after the failed call equal its contents before. -/
theorem merge_overlap_raises_and_unchanged (df : Df) (targetId : Int)
    (sourceIds : List Int) (r1 r2 : Row) (h1 : r1 ∈ df) (h2 : r2 ∈ df)
    (hf : r1.frame = r2.frame) (hp : r1.person ≠ r2.person)
    (hin1 : r1.person ∈ targetId :: sourceIds)
    (hin2 : r2.person ∈ targetId :: sourceIds) :
    (Tracker.merge_persons (some df) targetId sourceIds).2 = some ⟨⟩ ∧
    (Tracker.merge_persons (some df) targetId sourceIds).1 = some df := by
  have hne : r1 ≠ r2 := fun h => hp (by rw [h])
  have hr1s : r1 ∈ df.filter (fun r => (targetId :: sourceIds).contains r.person) :=
    List.mem_filter.mpr ⟨h1, by simpa using hin1⟩
  have hr2s : r2 ∈ df.filter (fun r => (targetId :: sourceIds).contains r.person) :=
    List.mem_filter.mpr ⟨h2, by simpa using hin2⟩
  have hover :
      hasFrameOverlap (df.filter (fun r => (targetId :: sourceIds).contains r.person))
        = true := by
    rw [hasFrameOverlap, List.any_eq_true]
    refine ⟨r1, hr1s, ?_⟩
    rw [decide_eq_true_iff]
    have hmem1 : r1 ∈ (df.filter
        (fun r => (targetId :: sourceIds).contains r.person)).filter
        (fun r => r.frame == r1.frame) :=
      List.mem_filter.mpr ⟨hr1s, by simp⟩
    have hmem2 : r2 ∈ (df.filter
        (fun r => (targetId :: sourceIds).contains r.person)).filter
        (fun r => r.frame == r1.frame) :=
      List.mem_filter.mpr ⟨hr2s, by simp [hf.symm]⟩
    have := two_le_length_of_mem_ne hmem1 hmem2 hne
    rw [frameLen]
    omega
  constructor
  · simp only [Tracker.merge_persons]
    rw [if_pos hover]
  · simp only [Tracker.merge_persons]
    rw [if_pos hover]

/-- Concrete store for the C1 witness: persons 1 and 2 both present in
frame 0. -/
def dfC1 : Df := [⟨0, 1, none⟩, ⟨0, 2, none⟩]

theorem merge_overlap_raises_and_unchanged_witness :
    (Tracker.merge_persons (some dfC1) 1 [2]).2 = some ⟨⟩ ∧
    (Tracker.merge_persons (some dfC1) 1 [2]).1 = some dfC1 :=
  merge_overlap_raises_and_unchanged dfC1 1 [2] ⟨0, 1, none⟩ ⟨0, 2, none⟩
    (by simp [dfC1]) (by simp [dfC1]) rfl (by decide) (by simp) (by simp)

/-! ### C3 — mutating operations preserve the uniqueness invariant -/

/-- C3: starting from a store satisfying the (frame, person) uniqueness
invariant, `remove_persons` (any id list) and `merge_persons` (any target
and sources, succeeding or failing) both leave a store satisfying the
invariant. -/
theorem mutations_preserve_invariant (t : Tracker) (hinv : TrackerInv t)
    (personIds : List Int) (targetId : Int) (sourceIds : List Int) :
    TrackerInv (Tracker.remove_persons t personIds) ∧
    TrackerInv (Tracker.merge_persons t targetId sourceIds).1 := by
  cases t with
  | none => exact ⟨trivial, trivial⟩
  | some df =>
    have hdf : UniqueFramePerson df := hinv
    constructor
    · exact List.Pairwise.filter _ hdf
    · by_cases hover : hasFrameOverlap
        (df.filter (fun r => (targetId :: sourceIds).contains r.person)) = true
      · simp only [Tracker.merge_persons]
        rw [if_pos hover]
        exact hdf
      · have hov : hasFrameOverlap
            (df.filter (fun r => (targetId :: sourceIds).contains r.person)) = false := by
          cases h : hasFrameOverlap
            (df.filter (fun r => (targetId :: sourceIds).contains r.person))
          · rfl
          · exact absurd h hover
        simp only [Tracker.merge_persons]
        rw [if_neg hover]
        show UniqueFramePerson (relabel df targetId sourceIds)
        have hpw2 := (pairwise_filter_bool
          (fun r : Row => (targetId :: sourceIds).contains r.person) df).mp
          ((hasFrameOverlap_eq_false_iff _).mp hov)
        rw [UniqueFramePerson, relabel, List.pairwise_map]
        refine (List.Pairwise.and hdf hpw2).imp ?_
        rintro a b ⟨hab, hframe⟩ ⟨hfeq, hpeq⟩
        have hmemcon : ∀ r : Row, r.person ∈ targetId :: sourceIds →
            (targetId :: sourceIds).contains r.person = true := by
          intro r hr
          simpa using hr
        cases hca : sourceIds.contains a.person with
        | true =>
          have hain : a.person ∈ targetId :: sourceIds :=
            List.mem_cons_of_mem _ (by simpa using hca)
          cases hcb : sourceIds.contains b.person with
          | true =>
            have hbin : b.person ∈ targetId :: sourceIds :=
              List.mem_cons_of_mem _ (by simpa using hcb)
            rw [hca, hcb] at hfeq
            simp only [if_pos rfl] at hfeq
            exact hframe (hmemcon a hain) (hmemcon b hbin) hfeq
          | false =>
            rw [hca, hcb] at hfeq hpeq
            simp only [if_pos rfl, Bool.false_eq_true, if_false] at hfeq hpeq
            have hbin : b.person ∈ targetId :: sourceIds := by
              rw [← hpeq]
              exact List.mem_cons_self _ _
            exact hframe (hmemcon a hain) (hmemcon b hbin) hfeq
        | false =>
          cases hcb : sourceIds.contains b.person with
          | true =>
            have hbin : b.person ∈ targetId :: sourceIds :=
              List.mem_cons_of_mem _ (by simpa using hcb)
            rw [hca, hcb] at hfeq hpeq
            simp only [if_pos rfl, Bool.false_eq_true, if_false] at hfeq hpeq
            have hain : a.person ∈ targetId :: sourceIds := by
              rw [hpeq]
              exact List.mem_cons_self _ _
            exact hframe (hmemcon a hain) (hmemcon b hbin) hfeq
          | false =>
            rw [hca, hcb] at hfeq hpeq
            simp only [Bool.false_eq_true, if_false] at hfeq hpeq
            exact hab ⟨hfeq, hpeq⟩

/-- Concrete store for the C3 witness. -/
def dfC3 : Df := [⟨0, 1, none⟩, ⟨1, 2, none⟩, ⟨2, 2, none⟩]

theorem mutations_preserve_invariant_witness :
    TrackerInv (Tracker.remove_persons (some dfC3) [2]) ∧
    TrackerInv (Tracker.merge_persons (some dfC3) 1 [2]).1 :=
  mutations_preserve_invariant (some dfC3)
    (by unfold TrackerInv UniqueFramePerson; decide) [2] 1 [2]

/-! ### C2 — disjoint merge: sources disappear, target count is the sum -/

/-- Number of rows whose person id lies in `ids`. -/
def countIn (df : Df) (ids : List Int) : Nat :=
  (df.filter (fun r => ids.contains r.person)).length

theorem countPerson_eq_length_framesOf (df : Df) (p : Int) :
    countPerson df p = (framesOf df p).length := by
  rw [framesOf, List.length_map]
  rfl

theorem relabel_count (df : Df) (targetId : Int) (sourceIds : List Int)
    (htgt : targetId ∉ sourceIds) :
    countPerson (relabel df targetId sourceIds) targetId
      = countPerson df targetId + countIn df sourceIds := by
  induction df with
  | nil => rfl
  | cons r rs ih =>
    simp only [relabel, List.map_cons, countPerson, countIn, List.filter_cons] at ih ⊢
    cases hc : sourceIds.contains r.person with
    | true =>
      have hrt : (r.person == targetId) = false := by
        rw [beq_eq_false_iff_ne]
        intro h
        exact htgt (by simpa [h] using hc)
      simp only [hc, hrt, beq_self_eq_true, eq_self_iff_true, if_true,
        Bool.false_eq_true, if_false, List.length_cons]
      omega
    | false =>
      simp only [hc, Bool.false_eq_true, if_false]
      cases hrt : (r.person == targetId) with
      | true =>
        simp only [eq_self_iff_true, if_true, List.length_cons]
        omega
      | false =>
        simp only [Bool.false_eq_true, if_false]
        omega

theorem countPerson_zero_no_rows {df : Df} {s : Int} (h : countPerson df s = 0) :
    ∀ r ∈ df, r.person ≠ s := by
  intro r hr hrs
  have : r ∈ df.filter (fun r => r.person == s) :=
    List.mem_filter.mpr ⟨hr, by simp [hrs]⟩
  have hpos := List.length_pos_of_mem this
  rw [countPerson] at h
  omega

theorem countIn_cons_absent (df : Df) (s : Int) (rest : List Int)
    (hrows : ∀ r ∈ df, r.person ≠ s) :
    countIn df (s :: rest) = countIn df rest := by
  rw [countIn, countIn, List.filter_congr]
  intro r hr
  have := hrows r hr
  simp [List.contains_cons, this]

theorem countIn_cons_of_not_mem (df : Df) (s : Int) (rest : List Int)
    (hs : s ∉ rest) :
    countIn df (s :: rest) = countPerson df s + countIn df rest := by
  induction df with
  | nil => rfl
  | cons r rs ih =>
    simp only [countIn, countPerson, List.filter_cons, List.contains_cons] at ih ⊢
    cases hrs : (r.person == s) with
    | true =>
      have hrest : rest.contains r.person = false := by
        have hps : r.person = s := by simpa using hrs
        rw [hps]
        simpa using hs
      simp only [hrs, Bool.true_or, hrest, eq_self_iff_true,
        if_true, Bool.false_eq_true, if_false, List.length_cons]
      omega
    | false =>
      simp only [hrs, Bool.false_or, Bool.false_eq_true, if_false]
      cases hrest : rest.contains r.person with
      | true =>
        simp only [eq_self_iff_true, if_true, List.length_cons]
        omega
      | false =>
        simp only [Bool.false_eq_true, if_false]
        omega

theorem countIn_nil_ids (df : Df) : countIn df [] = 0 := by
  induction df with
  | nil => rfl
  | cons r rs ihd =>
    rw [← ihd]
    simp [countIn, List.filter_cons]

theorem countIn_eq_sum (df : Df) (sourceIds : List Int)
    (hdisj : sourceIds.Pairwise
      (fun a b => List.Disjoint (framesOf df a) (framesOf df b))) :
    countIn df sourceIds = (sourceIds.map (countPerson df)).sum := by
  induction sourceIds with
  | nil =>
    rw [countIn_nil_ids]
    rfl
  | cons s rest ih =>
    obtain ⟨hhead, htail⟩ := List.pairwise_cons.mp hdisj
    by_cases hs : s ∈ rest
    · have hdss : List.Disjoint (framesOf df s) (framesOf df s) := hhead s hs
      have hempty : framesOf df s = [] :=
        List.eq_nil_iff_forall_not_mem.mpr (fun f hf => hdss hf hf)
      have hzero : countPerson df s = 0 := by
        rw [countPerson_eq_length_framesOf, hempty]
        rfl
      rw [countIn_cons_absent df s rest (countPerson_zero_no_rows hzero), ih htail]
      simp [hzero]
    · rw [countIn_cons_of_not_mem df s rest hs, ih htail]
      simp

/-- C2: on a store satisfying the uniqueness invariant, merging sources with
pairwise frame-disjoint involved ids (target not among the sources) raises
nothing, removes every source id from `get_person_ids`, and the target's
sample count afterwards is its count before plus the sum of the sources'
counts before. -/
theorem merge_disjoint_spec (df : Df) (targetId : Int) (sourceIds : List Int)
    (hinv : UniqueFramePerson df) (htgt : targetId ∉ sourceIds)
    (hdisj : (targetId :: sourceIds).Pairwise
      (fun a b => List.Disjoint (framesOf df a) (framesOf df b))) :
    (Tracker.merge_persons (some df) targetId sourceIds).2 = none ∧
    (Tracker.merge_persons (some df) targetId sourceIds).1
      = some (relabel df targetId sourceIds) ∧
    (∀ s ∈ sourceIds, s ∉ Tracker.get_person_ids
      (Tracker.merge_persons (some df) targetId sourceIds).1) ∧
    countPerson (relabel df targetId sourceIds) targetId
      = countPerson df targetId + (sourceIds.map (countPerson df)).sum := by
  have hsymm : Symmetric (fun a b : Int =>
      List.Disjoint (framesOf df a) (framesOf df b)) :=
    fun a b hab => List.disjoint_comm.mp hab
  have hsubpw : List.Pairwise (fun r1 r2 : Row => r1.frame ≠ r2.frame)
      (df.filter (fun r => (targetId :: sourceIds).contains r.person)) := by
    rw [pairwise_filter_bool]
    refine (List.Pairwise.and_mem.mp hinv).imp ?_
    rintro a b ⟨ha, hb, hnid⟩ hca hcb hfeq
    by_cases hpe : a.person = b.person
    · exact hnid ⟨hfeq, hpe⟩
    · have hain : a.person ∈ targetId :: sourceIds := by simpa using hca
      have hbin : b.person ∈ targetId :: sourceIds := by simpa using hcb
      have hdab := hdisj.forall hsymm hain hbin hpe
      have hfa : a.frame ∈ framesOf df a.person :=
        List.mem_map.mpr ⟨a, List.mem_filter.mpr ⟨ha, by simp⟩, rfl⟩
      have hfb : a.frame ∈ framesOf df b.person := by
        rw [hfeq]
        exact List.mem_map.mpr ⟨b, List.mem_filter.mpr ⟨hb, by simp⟩, rfl⟩
      exact hdab hfa hfb
  have hov : hasFrameOverlap
      (df.filter (fun r => (targetId :: sourceIds).contains r.person)) = false :=
    (hasFrameOverlap_eq_false_iff _).mpr hsubpw
  have hovne : ¬ hasFrameOverlap
      (df.filter (fun r => (targetId :: sourceIds).contains r.person)) = true := by
    rw [hov]
    simp
  have hmerge1 : (Tracker.merge_persons (some df) targetId sourceIds).1
      = some (relabel df targetId sourceIds) := by
    simp only [Tracker.merge_persons]
    rw [if_neg hovne]
  have hmerge2 : (Tracker.merge_persons (some df) targetId sourceIds).2 = none := by
    simp only [Tracker.merge_persons]
    rw [if_neg hovne]
  refine ⟨hmerge2, hmerge1, ?_, ?_⟩
  · intro s hs hmem
    rw [hmerge1] at hmem
    have h1 : s ∈ (relabel df targetId sourceIds).map Row.person := by
      have h2 := (List.perm_insertionSort (· ≤ ·)
        ((relabel df targetId sourceIds).map Row.person).dedup).mem_iff.mp hmem
      exact List.mem_dedup.mp h2
    obtain ⟨r, hr, hrp⟩ := List.mem_map.mp h1
    obtain ⟨r0, _, hg⟩ := List.mem_map.mp hr
    cases hc : sourceIds.contains r0.person with
    | true =>
      rw [hc] at hg
      simp only [eq_self_iff_true, if_true] at hg
      rw [← hg] at hrp
      have hts : targetId = s := hrp
      refine htgt ?_
      rw [hts]
      exact hs
    | false =>
      rw [hc] at hg
      simp only [Bool.false_eq_true, if_false] at hg
      rw [← hg] at hrp
      have hmem2 : r0.person ∈ sourceIds := by
        rw [hrp]
        exact hs
      rw [← List.elem_iff] at hmem2
      rw [show sourceIds.elem r0.person = sourceIds.contains r0.person from rfl, hc]
        at hmem2
      cases hmem2
  · rw [relabel_count df targetId sourceIds htgt,
      countIn_eq_sum df sourceIds (List.pairwise_cons.mp hdisj).2]

/-- Concrete store for the C2 witness: persons 1, 2, 3 with pairwise
disjoint frames. -/
def dfC2 : Df := [⟨0, 1, none⟩, ⟨5, 2, none⟩, ⟨7, 3, none⟩]

theorem merge_disjoint_spec_witness :
    (Tracker.merge_persons (some dfC2) 1 [2, 3]).2 = none ∧
    (Tracker.merge_persons (some dfC2) 1 [2, 3]).1
      = some (relabel dfC2 1 [2, 3]) ∧
    (∀ s ∈ ([2, 3] : List Int), s ∉ Tracker.get_person_ids
      (Tracker.merge_persons (some dfC2) 1 [2, 3]).1) ∧
    countPerson (relabel dfC2 1 [2, 3]) 1
      = countPerson dfC2 1 + (([2, 3] : List Int).map (countPerson dfC2)).sum :=
  merge_disjoint_spec dfC2 1 [2, 3]
    (by unfold UniqueFramePerson; decide)
    (by decide)
    (by simp [List.pairwise_cons, List.Disjoint, framesOf, dfC2])

/-! ### C6 — events are the maximal contiguous runs of sorted frames -/

/-- The inclusive integer range `[s..e]` covered by one event. -/
def rangeInt (s e : Int) : List Int :=
  (List.range (e + 1 - s).toNat).map (fun i : Nat => s + (i : Int))

theorem rangeInt_self (s : Int) : rangeInt s s = [s] := by
  rw [rangeInt, show s + 1 - s = 1 by ring]
  rw [show ((1 : Int).toNat) = 1 from rfl, show List.range 1 = [0] from rfl]
  simp

theorem rangeInt_append (s e : Int) (h : s ≤ e + 1) :
    rangeInt s (e + 1) = rangeInt s e ++ [e + 1] := by
  rw [rangeInt, rangeInt]
  have h1 : (e + 1 + 1 - s).toNat = (e + 1 - s).toNat + 1 := by omega
  rw [h1, List.range_succ, List.map_append]
  congr 1
  simp only [List.map_cons, List.map_nil]
  have h2 : s + (((e + 1 - s).toNat : ℕ) : ℤ) = e + 1 := by omega
  rw [h2]

theorem eventsLoop_shape (l : List Int) (s e : Int) :
    ∃ z tl, eventsLoop l s e = (s, z) :: tl := by
  induction l generalizing s e with
  | nil => exact ⟨e, [], rfl⟩
  | cons f rest ih =>
    rw [eventsLoop]
    by_cases hfe : (f == e + 1) = true
    · rw [if_pos hfe]
      exact ih s f
    · rw [if_neg hfe]
      exact ⟨e, _, rfl⟩

theorem eventsLoop_flatten (l : List Int) (s e : Int) (hse : s ≤ e)
    (hchain : List.Chain (· < ·) e l) :
    ((eventsLoop l s e).map (fun ev => rangeInt ev.1 ev.2)).flatten
      = rangeInt s e ++ l := by
  induction l generalizing s e with
  | nil => simp [eventsLoop]
  | cons f rest ih =>
    have hef : e < f := (List.chain_cons.mp hchain).1
    have hrest : List.Chain (· < ·) f rest := (List.chain_cons.mp hchain).2
    rw [eventsLoop]
    by_cases hfe : (f == e + 1) = true
    · have hfeq : f = e + 1 := by simpa using hfe
      rw [if_pos hfe, ih s f (by omega) hrest, hfeq,
        rangeInt_append s e (by omega)]
      simp
    · rw [if_neg hfe]
      simp only [List.map_cons, List.flatten_cons]
      rw [ih f f le_rfl hrest, rangeInt_self]
      simp

theorem eventsLoop_chain_bounds (l : List Int) (s e : Int) (hse : s ≤ e)
    (hchain : List.Chain (· < ·) e l) :
    List.Chain' (fun a b : Int × Int => a.2 + 1 < b.1) (eventsLoop l s e) ∧
    ∀ ev ∈ eventsLoop l s e, ev.1 ≤ ev.2 := by
  induction l generalizing s e with
  | nil =>
    constructor
    · simp [eventsLoop]
    · intro ev hev
      rw [eventsLoop] at hev
      rcases List.mem_cons.mp hev with rfl | h2
      · exact hse
      · cases h2
  | cons f rest ih =>
    have hef : e < f := (List.chain_cons.mp hchain).1
    have hrest : List.Chain (· < ·) f rest := (List.chain_cons.mp hchain).2
    rw [eventsLoop]
    by_cases hfe : (f == e + 1) = true
    · have hfeq : f = e + 1 := by simpa using hfe
      rw [if_pos hfe]
      exact ih s f (by omega) hrest
    · have hfne : f ≠ e + 1 := by simpa using hfe
      rw [if_neg hfe]
      obtain ⟨ihc, ihb⟩ := ih f f le_rfl hrest
      obtain ⟨z, tl, hshape⟩ := eventsLoop_shape rest f f
      constructor
      · rw [hshape, List.chain'_cons]
        refine ⟨?_, by rw [← hshape]; exact ihc⟩
        show e + 1 < f
        omega
      · intro ev hev
        rcases List.mem_cons.mp hev with rfl | h2
        · exact hse
        · exact ihb ev h2

theorem frames_nodup (df : Df) (personId : Int) (hinv : UniqueFramePerson df) :
    (framesOf df personId).Nodup := by
  rw [framesOf, List.Nodup, List.pairwise_map]
  rw [pairwise_filter_bool]
  refine hinv.imp ?_
  intro a b hnid hpa hpb hfeq
  have hpe : a.person = b.person := by
    have h1 : a.person = personId := by simpa using hpa
    have h2 : b.person = personId := by simpa using hpb
    rw [h1, h2]
  exact hnid ⟨hfeq, hpe⟩

/-- C6: on a store satisfying the uniqueness invariant,
`get_events_for_person` returns exactly the maximal contiguous inclusive
runs of the person's sorted frames: an empty list for an absent person; the
ranges of the returned events concatenate back to the sorted frame list;
consecutive events are separated by a gap (`end + 1 < next start`); and
every event satisfies `start ≤ end`. -/
theorem get_events_maximal_runs (df : Df) (personId : Int)
    (hinv : UniqueFramePerson df) :
    (framesOf df personId = [] →
      Tracker.get_events_for_person (some df) personId = []) ∧
    ((Tracker.get_events_for_person (some df) personId).map
      (fun ev => rangeInt ev.1 ev.2)).flatten
        = List.insertionSort (· ≤ ·) (framesOf df personId) ∧
    List.Chain' (fun a b : Int × Int => a.2 + 1 < b.1)
      (Tracker.get_events_for_person (some df) personId) ∧
    ∀ ev ∈ Tracker.get_events_for_person (some df) personId, ev.1 ≤ ev.2 := by
  have hnd : (framesOf df personId).Nodup := frames_nodup df personId hinv
  have hperm := List.perm_insertionSort (· ≤ ·) (framesOf df personId)
  have hndsorted : (List.insertionSort (· ≤ ·) (framesOf df personId)).Nodup :=
    (hperm.nodup_iff).mpr hnd
  have hsort : List.Sorted (· ≤ ·) (List.insertionSort (· ≤ ·) (framesOf df personId)) :=
    List.sorted_insertionSort _ _
  have hlt : List.Pairwise (· < ·) (List.insertionSort (· ≤ ·) (framesOf df personId)) := by
    refine (List.Pairwise.and hsort hndsorted).imp ?_
    rintro a b ⟨hle, hne⟩
    exact lt_of_le_of_ne hle hne
  have hunf : Tracker.get_events_for_person (some df) personId
      = (match List.insertionSort (· ≤ ·) (framesOf df personId) with
         | [] => []
         | f :: rest => eventsLoop rest f f) := rfl
  cases hs : List.insertionSort (· ≤ ·) (framesOf df personId) with
  | nil =>
    rw [hunf, hs]
    exact ⟨fun _ => rfl, by simp [hs], by simp, by simp⟩
  | cons f rest =>
    rw [hs] at hlt
    have hchain : List.Chain (· < ·) f rest := List.chain_iff_pairwise.mpr hlt
    have hev : Tracker.get_events_for_person (some df) personId
        = eventsLoop rest f f := by
      rw [hunf, hs]
    refine ⟨?_, ?_, ?_, ?_⟩
    · intro hempty
      rw [hempty] at hs
      simp at hs
    · rw [hev]
      rw [eventsLoop_flatten rest f f le_rfl hchain]
      rw [rangeInt_self]
      rw [List.singleton_append]
    · rw [hev]
      exact (eventsLoop_chain_bounds rest f f le_rfl hchain).1
    · rw [hev]
      exact (eventsLoop_chain_bounds rest f f le_rfl hchain).2

/-- Concrete store for the C6 witness: person 1 present in frames
`[0, 1, 2, 5, 6, 9]`. -/
def dfC6 : Df :=
  [⟨0, 1, none⟩, ⟨1, 1, none⟩, ⟨2, 1, none⟩, ⟨5, 1, none⟩, ⟨6, 1, none⟩, ⟨9, 1, none⟩]

theorem get_events_maximal_runs_witness :
    Tracker.get_events_for_person (some dfC6) 1 = [(0, 2), (5, 6), (9, 9)] ∧
    Tracker.get_events_for_person (some dfC6) 2 = [] ∧
    ((framesOf dfC6 1 = [] →
      Tracker.get_events_for_person (some dfC6) 1 = []) ∧
    ((Tracker.get_events_for_person (some dfC6) 1).map
      (fun ev => rangeInt ev.1 ev.2)).flatten
        = List.insertionSort (· ≤ ·) (framesOf dfC6 1) ∧
    List.Chain' (fun a b : Int × Int => a.2 + 1 < b.1)
      (Tracker.get_events_for_person (some dfC6) 1) ∧
    ∀ ev ∈ Tracker.get_events_for_person (some dfC6) 1, ev.1 ≤ ev.2) :=
  ⟨by decide, by decide,
    get_events_maximal_runs dfC6 1 (by unfold UniqueFramePerson; decide)⟩

/-- Store for the C2 counterexample, part 1: person 2 alone, at frame 0. -/
def dfC2x : Df := [⟨0, 2, none⟩]

/-- Store for the C2 counterexample, part 2: duplicate (frame 0, person 1)
rows and person 3 at frame 5. -/
def dfC2y : Df := [⟨0, 1, none⟩, ⟨0, 1, none⟩, ⟨5, 3, none⟩]

/-- C2 counterexample.  Part 1: with `target = 1 ∈ sources = [1, 2]` the
frame sets of the involved ids are pairwise disjoint (and the store even
satisfies the uniqueness invariant), the merge succeeds, yet source id 1
still appears in `get_person_ids` afterwards.  Part 2: on a store violating
uniqueness with duplicate (frame, person) rows, the involved frame sets are
pairwise disjoint but the merge raises, leaving source id 3 present. -/
theorem merge_disjoint_counterexample :
    (UniqueFramePerson dfC2x ∧
     ([1, 1, 2] : List Int).Pairwise
       (fun a b => List.Disjoint (framesOf dfC2x a) (framesOf dfC2x b)) ∧
     (Tracker.merge_persons (some dfC2x) 1 [1, 2]).2 = none ∧
     (1 : Int) ∈ ([1, 2] : List Int) ∧
     (1 : Int) ∈ Tracker.get_person_ids
       (Tracker.merge_persons (some dfC2x) 1 [1, 2]).1) ∧
    (([1, 3] : List Int).Pairwise
       (fun a b => List.Disjoint (framesOf dfC2y a) (framesOf dfC2y b)) ∧
     (Tracker.merge_persons (some dfC2y) 1 [3]).2 = some ⟨⟩ ∧
     (3 : Int) ∈ ([3] : List Int) ∧
     (3 : Int) ∈ Tracker.get_person_ids
       (Tracker.merge_persons (some dfC2y) 1 [3]).1) := by
  refine ⟨⟨?_, ?_, by decide, by decide, by decide⟩, ⟨?_, by decide, by decide, by decide⟩⟩
  · unfold UniqueFramePerson
    decide
  · simp [List.pairwise_cons, List.Disjoint, framesOf, dfC2x]
  · simp [List.pairwise_cons, List.Disjoint, framesOf, dfC2y]

/-! ## Geometry: real-number reading of the numpy vector operations -/

noncomputable section

/-- Componentwise vector sum (`numpy +`). -/
def Vec3.add (u v : Vec3) : Vec3 := ⟨u.x + v.x, u.y + v.y, u.z + v.z⟩

/-- Componentwise vector difference (`numpy -`). -/
def Vec3.sub (u v : Vec3) : Vec3 := ⟨u.x - v.x, u.y - v.y, u.z - v.z⟩

/-- Scalar multiple (also used for `v / c` as `smul (1/c) v`). -/
def Vec3.smul (c : ℝ) (v : Vec3) : Vec3 := ⟨c * v.x, c * v.y, c * v.z⟩

/-- `np.dot`. -/
def Vec3.dot (u v : Vec3) : ℝ := u.x * v.x + u.y * v.y + u.z * v.z

/-- `np.cross`. -/
def Vec3.cross (u v : Vec3) : Vec3 :=
  ⟨u.y * v.z - u.z * v.y, u.z * v.x - u.x * v.z, u.x * v.y - u.y * v.x⟩

/-- `np.linalg.norm`. -/
def Vec3.norm (v : Vec3) : ℝ := Real.sqrt (Vec3.dot v v)

/-- The zero vector. -/
def Vec3.zero : Vec3 := ⟨0, 0, 0⟩

/-! ### C7 / C8 — `_create_floor_transform` from `importers/zed.py` -/

/-- The camera→world rigid transform: rotation rows `rx, ry, rz` and
translation `t` (`p_world = R @ p_camera + t`). -/
structure FloorTransform where
  rx : Vec3
  ry : Vec3
  rz : Vec3
  t : Vec3

/-- `_create_floor_transform(floor_plane_eq)` read over the reals.  The
python body performs no validity check on the plane normal and contains no
`raise`; with a zero normal, `n / np.linalg.norm(n)` divides by zero, which
in numpy yields non-finite values and only a warning — the function still
returns.  (In this exact-real reading the division by zero follows the Lean
convention `x / 0 = 0`.) -/
def create_floor_transform (a b c d : ℝ) : FloorTransform :=
  let n : Vec3 := ⟨a, b, c⟩
  let zWorld := Vec3.smul (1 / n.norm) n
  let camForward : Vec3 := ⟨0, 1, 0⟩
  let yProj := Vec3.sub camForward (Vec3.smul (Vec3.dot camForward zWorld) zWorld)
  let yNorm := yProj.norm
  if yNorm < 1 / 1000000 then
    let camRight : Vec3 := ⟨1, 0, 0⟩
    let xProj := Vec3.sub camRight (Vec3.smul (Vec3.dot camRight zWorld) zWorld)
    let xWorld := Vec3.smul (1 / xProj.norm) xProj
    let yWorld := Vec3.cross zWorld xWorld
    ⟨xWorld, yWorld, zWorld, ⟨0, 0, d⟩⟩
  else
    let yWorld := Vec3.smul (1 / yNorm) yProj
    let xWorld := Vec3.cross yWorld zWorld
    ⟨xWorld, yWorld, zWorld, ⟨0, 0, d⟩⟩

theorem smul_one_norm {v : Vec3} (h : v.norm = 1) : Vec3.smul (1 / v.norm) v = v := by
  rw [h]
  cases v
  simp [Vec3.smul]

/-- C7: for a unit-magnitude normal, the returned rotation has rows
`worldX, worldY, worldZ` built from the normal and the projected
camera-forward axis (camera-right in the degenerate branch), with
`t = (0, 0, d)`; and on the already-flat floor `[0, 0, 1, -1]` the result is
the identity rotation with `t = (0, 0, -1)`. -/
theorem floor_frame_rows (a b c d : ℝ) (hunit : (Vec3.mk a b c).norm = 1) :
    (create_floor_transform a b c d).rz = ⟨a, b, c⟩ ∧
    (create_floor_transform a b c d).t = ⟨0, 0, d⟩ ∧
    ((Vec3.sub ⟨0, 1, 0⟩ (Vec3.smul (Vec3.dot ⟨0, 1, 0⟩ ⟨a, b, c⟩) ⟨a, b, c⟩)).norm
        < 1 / 1000000 →
      (create_floor_transform a b c d).rx
          = Vec3.smul (1 / (Vec3.sub ⟨1, 0, 0⟩
              (Vec3.smul (Vec3.dot ⟨1, 0, 0⟩ ⟨a, b, c⟩) ⟨a, b, c⟩)).norm)
            (Vec3.sub ⟨1, 0, 0⟩ (Vec3.smul (Vec3.dot ⟨1, 0, 0⟩ ⟨a, b, c⟩) ⟨a, b, c⟩)) ∧
      (create_floor_transform a b c d).ry
          = Vec3.cross ⟨a, b, c⟩ (create_floor_transform a b c d).rx) ∧
    (¬ (Vec3.sub ⟨0, 1, 0⟩ (Vec3.smul (Vec3.dot ⟨0, 1, 0⟩ ⟨a, b, c⟩) ⟨a, b, c⟩)).norm
        < 1 / 1000000 →
      (create_floor_transform a b c d).ry
          = Vec3.smul (1 / (Vec3.sub ⟨0, 1, 0⟩
              (Vec3.smul (Vec3.dot ⟨0, 1, 0⟩ ⟨a, b, c⟩) ⟨a, b, c⟩)).norm)
            (Vec3.sub ⟨0, 1, 0⟩ (Vec3.smul (Vec3.dot ⟨0, 1, 0⟩ ⟨a, b, c⟩) ⟨a, b, c⟩)) ∧
      (create_floor_transform a b c d).rx
          = Vec3.cross (create_floor_transform a b c d).ry ⟨a, b, c⟩) ∧
    create_floor_transform 0 0 1 (-1)
        = ⟨⟨1, 0, 0⟩, ⟨0, 1, 0⟩, ⟨0, 0, 1⟩, ⟨0, 0, -1⟩⟩ := by
  have hz : Vec3.smul (1 / (Vec3.mk a b c).norm) ⟨a, b, c⟩ = ⟨a, b, c⟩ :=
    smul_one_norm hunit
  have hconc : create_floor_transform 0 0 1 (-1)
      = ⟨⟨1, 0, 0⟩, ⟨0, 1, 0⟩, ⟨0, 0, 1⟩, ⟨0, 0, -1⟩⟩ := by
    rw [create_floor_transform]
    have hn : (Vec3.mk 0 0 1).norm = 1 := by
      rw [Vec3.norm, Vec3.dot]
      norm_num
    rw [show Vec3.smul (1 / (Vec3.mk 0 0 1).norm) ⟨0, 0, 1⟩ = ⟨0, 0, 1⟩ from
      smul_one_norm hn]
    have hdot : Vec3.dot ⟨0, 1, 0⟩ ⟨0, 0, 1⟩ = 0 := by
      rw [Vec3.dot]
      norm_num
    rw [hdot]
    have hsub : Vec3.sub ⟨0, 1, 0⟩ (Vec3.smul 0 ⟨0, 0, 1⟩) = ⟨0, 1, 0⟩ := by
      rw [Vec3.smul, Vec3.sub]
      norm_num
    rw [hsub]
    have hyn : (Vec3.mk 0 1 0).norm = 1 := by
      rw [Vec3.norm, Vec3.dot]
      norm_num
    rw [hyn, if_neg (by norm_num)]
    rw [show Vec3.smul (1 / (1 : ℝ)) ⟨0, 1, 0⟩ = ⟨0, 1, 0⟩ by rw [Vec3.smul]; norm_num]
    simp only [Vec3.cross]
    norm_num
  rw [create_floor_transform]
  rw [hz]
  by_cases hcond : (Vec3.sub ⟨0, 1, 0⟩
      (Vec3.smul (Vec3.dot ⟨0, 1, 0⟩ ⟨a, b, c⟩) ⟨a, b, c⟩)).norm < 1 / 1000000
  · rw [if_pos hcond]
    exact ⟨rfl, rfl, fun _ => ⟨rfl, rfl⟩, fun h => absurd hcond h, hconc⟩
  · rw [if_neg hcond]
    exact ⟨rfl, rfl, fun h => absurd h hcond, fun _ => ⟨rfl, rfl⟩, hconc⟩

theorem floor_frame_rows_witness :
    (Vec3.mk 0 0 1).norm = 1 ∧
    create_floor_transform 0 0 1 (-1)
        = ⟨⟨1, 0, 0⟩, ⟨0, 1, 0⟩, ⟨0, 0, 1⟩, ⟨0, 0, -1⟩⟩ := by
  have hn : (Vec3.mk 0 0 1).norm = 1 := by
    rw [Vec3.norm, Vec3.dot]
    norm_num
  exact ⟨hn, (floor_frame_rows 0 0 1 (-1) hn).2.2.2.2⟩

/-- C8 amended: for a plane whose normal is (exactly) zero,
`_create_floor_transform` performs no validity check and raises nothing — it
returns a transform whose translation is still `(0, 0, d)`.  (In floating
point the rotation entries are NaN; no `InvalidPlaneError` exists anywhere
in the code base.) -/
theorem zero_normal_still_returns (d : ℝ) :
    (create_floor_transform 0 0 0 d).t = ⟨0, 0, d⟩ := by
  rw [create_floor_transform]
  split
  · rfl
  · rfl

/-- C8 counterexample: at the concrete zero-normal plane `[0, 0, 0, 1]` the
function returns a transform (with `t = (0, 0, 1)`) instead of failing with
`InvalidPlaneError` — no such failure path exists in the code. -/
theorem zero_normal_counterexample :
    (create_floor_transform 0 0 0 1).t = ⟨0, 0, 1⟩ := by
  rw [create_floor_transform]
  split
  · rfl
  · rfl

/-! ### C4 / C5 — `make_pose_assessment` and the batch assessment pass -/

/-- The `ValueError` raised by scikit-spatial when a `Plane` is constructed
with a zero direction vector. -/
structure ValueError where
  deriving DecidableEq

/-- scikit-spatial `Plane`: a point and a (not necessarily unit) normal. -/
structure Plane where
  point : Vec3
  normal : Vec3

open Classical in
/-- `Plane(point, vector)` construction: scikit-spatial raises `ValueError`
when the direction vector is the zero vector (`Vector.is_zero` with default
`math.isclose` tolerances accepts only an exactly-zero norm). -/
def Plane.make (p v : Vec3) : Except ValueError Plane :=
  if v = Vec3.zero then .error ⟨⟩ else .ok ⟨p, v⟩

/-- scikit-spatial `Plane.project_vector`: the orthogonal projection of `v`
onto the plane, `v - ((v·n)/(n·n)) n`. -/
def Plane.project_vector (pl : Plane) (v : Vec3) : Vec3 :=
  Vec3.sub v (Vec3.smul (Vec3.dot v pl.normal / Vec3.dot pl.normal pl.normal) pl.normal)

/-- scikit-spatial `Vector.cosine_similarity`, clipped to `[-1, 1]`
(`np.clip` before the `arccos`). -/
def cosine_similarity (u v : Vec3) : ℝ :=
  max (-1) (min 1 (Vec3.dot u v / (Vec3.norm u * Vec3.norm v)))

/-- scikit-spatial `Vector.angle_between`: `arccos` of the clipped cosine
similarity. -/
def angle_between (u v : Vec3) : ℝ := Real.arccos (cosine_similarity u v)

open Classical in
/-- scikit-spatial `Vector.angle_signed_3d u v d`: signed angle between `u`
and `v` — magnitude `angle_between u v`, sign that of `(u × v) · d`.  (The
library computes this with `atan2`; all variants agree on magnitude and
sign, and the claims evaluate it only on parallel vectors where it is 0.) -/
def angle_signed_3d (u v d : Vec3) : ℝ :=
  (if Vec3.dot (Vec3.cross u v) d < 0 then -1 else 1) * angle_between u v

/-- Modelled from the spec: `SkeletonDefinition` (§3) — the immutable
mapping from anatomical roles to dense array indices.  The class imported
by `pose_assessment.py` (`from pose_skeletons import SkeletonDefinition`)
is not present under `src/`; only the roles the assessment and the test
fixture address are modelled.  The concrete index values are irrelevant to
every claim: joints are accessed exclusively through this mapping. -/
structure SkeletonDefinition where
  head : Nat
  neck : Nat
  l_shoulder : Nat
  r_shoulder : Nat
  l_elbow : Nat
  r_elbow : Nat
  l_wrist : Nat
  r_wrist : Nat
  l_hip : Nat
  r_hip : Nat

/-- `joints[i]` on the per-row keypoint array.  The parquet schema stores a
full `float[N][3]` array per row, so indices are in bounds; reads outside
the stored prefix return the zero row (the fixtures are zero-initialized
`np.zeros` arrays). -/
def jointAt (joints : KP) (i : Nat) : Vec3 := joints.getD i Vec3.zero

/-- A value of the assessment dictionary: a `Plane` or a float metric. -/
inductive AssessVal where
  | plane (p : Plane)
  | scalar (r : ℝ)

/-- Python `dict.get`: `none` when the key is absent. -/
def dictGet (entries : List (String × AssessVal)) (k : String) : Option AssessVal :=
  (entries.find? (fun e => e.1 == k)).map (fun e => e.2)

/-- `make_pose_assessment` from `pose_assessment.py`, read over the reals;
a raised `ValueError` (zero-normal `Plane` construction) is modelled with
`Except`, propagated in source order.  The coronal plane is built from the
normalized `vf/‖vf‖`, which as a float is a unit vector or NaN and never
the exact zero vector, so that construction never raises and is a plain
`Plane.mk`.  The resulting dictionary is the association list of the keys
the function assigns, in assignment order. -/
def make_pose_assessment (skeleton : SkeletonDefinition) (joints : KP) :
    Except ValueError (List (String × AssessVal)) :=
  let j := fun i => jointAt joints i
  let vhc := Vec3.smul (1 / 2) (Vec3.add (j skeleton.r_hip) (j skeleton.l_hip))
  let vu := Vec3.sub (j skeleton.neck) vhc
  match Plane.make vhc vu with
  | .error e => .error e
  | .ok transverse =>
    let vf := Vec3.cross vu (Vec3.sub (j skeleton.r_hip) (j skeleton.l_hip))
    let coronal : Plane := ⟨vhc, Vec3.smul (1 / Vec3.norm vf) vf⟩
    let vl := Vec3.cross vu vf
    match Plane.make vhc vl with
    | .error e => .error e
    | .ok sagittal =>
      let vgo : Vec3 := ⟨vhc.x, vhc.y, 0⟩
      let vgu : Vec3 := ⟨0, 0, 1⟩
      match Plane.make vgo vgu with
      | .error e => .error e
      | .ok ground =>
        let vgf := Vec3.cross vgu (Vec3.sub (j skeleton.r_hip) (j skeleton.l_hip))
        match Plane.make vhc vgf with
        | .error e => .error e
        | .ok groundCoronal =>
          let vgl := Vec3.cross vgu vgf
          match Plane.make vhc vgl with
          | .error e => .error e
          | .ok groundSagittal =>
            let gspVu := groundSagittal.project_vector vu
            let trunkBending :=
              angle_signed_3d gspVu vgu (Vec3.smul (-1) vgl) / (2 * Real.pi) * 360
            let gcpVu := groundCoronal.project_vector vu
            let trunkSideBending := angle_between gcpVu vgu / (2 * Real.pi) * 360
            let gp13 := ground.project_vector
              (Vec3.sub (j skeleton.r_hip) (j skeleton.l_hip))
            let gp6 := ground.project_vector
              (Vec3.sub (j skeleton.l_shoulder) (j skeleton.r_shoulder))
            let trunkTwist := angle_between gp13 gp6 / (2 * Real.pi) * 360 - 180
            .ok [("transverse_plane", AssessVal.plane transverse),
                 ("coronal_plane", AssessVal.plane coronal),
                 ("sagittal_plane", AssessVal.plane sagittal),
                 ("ground_plane", AssessVal.plane ground),
                 ("ground_coronal_plane", AssessVal.plane groundCoronal),
                 ("ground_sagittal_plane", AssessVal.plane groundSagittal),
                 ("trunk_bending", AssessVal.scalar trunkBending),
                 ("trunk_side_bending", AssessVal.scalar trunkSideBending),
                 ("trunk_twist", AssessVal.scalar trunkTwist)]

/-- The struct of metric columns produced per row by
`add_pose_assessment_columns`. -/
structure RowMetrics where
  trunk_bending : Option ℝ
  trunk_side_bending : Option ℝ
  trunk_twist : Option ℝ
  left_elbow_above_shoulder : Option ℝ
  right_elbow_above_shoulder : Option ℝ
  left_hand_above_head_level : Option ℝ
  right_hand_above_head_level : Option ℝ
  left_far_reach : Option ℝ
  right_far_reach : Option ℝ

/-- `results.get(key)` restricted to float values (`_compute_row_metrics`
extracts "only the float values we want", discarding `Plane` objects). -/
def getScalar (entries : List (String × AssessVal)) (k : String) : Option ℝ :=
  match dictGet entries k with
  | some (AssessVal.scalar r) => some r
  | _ => none

/-- `_compute_row_metrics` from `tracker.add_pose_assessment_columns`:
`None` keypoints give a null struct; otherwise the assessment runs (a
raised exception propagates) and the nine columns are read with `.get`. -/
def compute_row_metrics (skeleton : SkeletonDefinition) (kp : Option KP) :
    Except ValueError (Option RowMetrics) :=
  match kp with
  | none => Except.ok none
  | some joints =>
    (make_pose_assessment skeleton joints).map (fun results =>
      some { trunk_bending := getScalar results ("trunk_bending")
             trunk_side_bending := getScalar results ("trunk_side_bending")
             trunk_twist := getScalar results ("trunk_twist")
             left_elbow_above_shoulder :=
               getScalar results ("left_elbow_above_shoulder")
             right_elbow_above_shoulder :=
               getScalar results ("right_elbow_above_shoulder")
             left_hand_above_head_level :=
               getScalar results ("left_hand_above_head_level")
             right_hand_above_head_level :=
               getScalar results ("right_hand_above_head_level")
             left_far_reach := getScalar results ("left_far_reach")
             right_far_reach := getScalar results ("right_far_reach") })

/-- `add_pose_assessment_columns`: returns with the tracker unchanged when
there is no data; otherwise applies `_compute_row_metrics` to every row
(`map_elements`) and attaches the result struct.  An exception raised on
any row propagates out of the whole pass (before `tracker.df` is
reassigned). -/
def add_pose_assessment_columns (t : Tracker) (skeleton : SkeletonDefinition) :
    Except ValueError (Option (List (Row × Option RowMetrics))) :=
  match t with
  | none => Except.ok none
  | some df =>
    (df.mapM (fun r =>
      (compute_row_metrics skeleton r.keypoints3d).map (fun m => (r, m)))).map some

/-- The metrics attached to a row whose assessment does not raise. -/
def rowMetricsOk (skeleton : SkeletonDefinition) (r : Row) : Option RowMetrics :=
  match compute_row_metrics skeleton r.keypoints3d with
  | .ok m => m
  | .error _ => none

/-- Modelled from the spec: the "xsens" skeleton definition looked up by
the tests through the registry (`get_skeleton_def("xsens")`), which is not
registered in the `pose_skeletons.py` under `src/`.  Any injective
role→index assignment produces the same assessment. -/
def xsensSkeleton : SkeletonDefinition :=
  { head := 0, neck := 1, l_shoulder := 2, r_shoulder := 3, l_elbow := 4,
    r_elbow := 5, l_wrist := 6, r_wrist := 7, l_hip := 8, r_hip := 9 }

/-- The standing, arms-down pose fixture of `test_pose_assessment.py`
(`np.zeros` array assigned by role; unassigned joints stay zero), laid out
by the modelled xsens indices. -/
def standingPose : KP :=
  [⟨0, 0, 17/10⟩,
   ⟨0, 0, 3/2⟩,
   ⟨1/5, 0, 29/20⟩,
   ⟨-1/5, 0, 29/20⟩,
   ⟨7/20, 0, 6/5⟩,
   ⟨-7/20, 0, 6/5⟩,
   ⟨9/20, 0, 19/20⟩,
   ⟨-9/20, 0, 19/20⟩,
   ⟨1/10, 0, 1⟩,
   ⟨-1/10, 0, 1⟩]

/-- Degenerate keypoints for C4: every joint at the origin, so the hip
center coincides with the neck and the transverse-plane normal is the zero
vector. -/
def degenerateJoints : KP := List.replicate 10 Vec3.zero

/-- Store for the C4 theorems: one row with missing keypoints and one row
with degenerate keypoints. -/
def dfC4 : Df := [⟨0, 1, none⟩, ⟨1, 1, some degenerateJoints⟩]

theorem except_bind_ok {ε α β : Type _} (a : α) (f : α → Except ε β) :
    (Except.ok a >>= f) = f a := rfl

theorem except_bind_error {ε α β : Type _} (e : ε) (f : α → Except ε β) :
    ((Except.error e : Except ε α) >>= f) = Except.error e := rfl

theorem jointAt_degenerate (i : Nat) : jointAt degenerateJoints i = Vec3.zero := by
  rw [jointAt, degenerateJoints]
  rcases Nat.lt_or_ge i 10 with h | h
  · rw [List.getD_eq_getElem?_getD, List.getElem?_replicate]
    simp [h]
  · rw [List.getD_eq_getElem?_getD]
    rw [List.getElem?_eq_none (by simpa using h)]
    rfl

/-- On the degenerate pose the very first `Plane` construction (transverse
plane, normal `neck - hipCenter = 0`) raises `ValueError`. -/
theorem make_pose_degenerate :
    make_pose_assessment xsensSkeleton degenerateJoints = Except.error ⟨⟩ := by
  have hvu : Vec3.sub (jointAt degenerateJoints xsensSkeleton.neck)
      (Vec3.smul (1 / 2) (Vec3.add (jointAt degenerateJoints xsensSkeleton.r_hip)
        (jointAt degenerateJoints xsensSkeleton.l_hip))) = Vec3.zero := by
    rw [jointAt_degenerate, jointAt_degenerate, jointAt_degenerate]
    rw [Vec3.zero, Vec3.add, Vec3.smul, Vec3.sub]
    norm_num
  simp only [make_pose_assessment, Plane.make, hvu, eq_self_iff_true, if_true]

/-- C4 counterexample: one row with degenerate geometry makes the whole
`add_pose_assessment_columns` pass raise `ValueError` — the batch is
aborted instead of the row being skipped with a null result. -/
theorem degenerate_row_aborts_batch :
    add_pose_assessment_columns (some dfC4) xsensSkeleton = Except.error ⟨⟩ := by
  simp only [add_pose_assessment_columns, dfC4]
  rw [List.mapM_cons, List.mapM_cons, List.mapM_nil]
  simp only [compute_row_metrics]
  rw [make_pose_degenerate]
  rfl

theorem mapM_all_ok (skeleton : SkeletonDefinition) (df : Df)
    (hok : ∀ r ∈ df, (compute_row_metrics skeleton r.keypoints3d).isOk = true) :
    df.mapM (fun r =>
        (compute_row_metrics skeleton r.keypoints3d).map (fun m => (r, m)))
      = Except.ok (df.map (fun r => (r, rowMetricsOk skeleton r))) := by
  induction df with
  | nil => rfl
  | cons r rs ih =>
    have hr := hok r (List.mem_cons_self r rs)
    obtain ⟨m, hm⟩ : ∃ m, compute_row_metrics skeleton r.keypoints3d = Except.ok m := by
      cases hcm : compute_row_metrics skeleton r.keypoints3d with
      | ok m => exact ⟨m, rfl⟩
      | error e =>
        rw [hcm] at hr
        cases hr
    rw [List.mapM_cons, hm]
    rw [show (Except.ok m : Except ValueError (Option RowMetrics)).map
        (fun m => (r, m)) = Except.ok (r, m) from rfl]
    rw [except_bind_ok]
    rw [ih (fun r2 h2 => hok r2 (List.mem_cons_of_mem r h2))]
    rw [except_bind_ok]
    rw [List.map_cons]
    rw [show rowMetricsOk skeleton r = m from by rw [rowMetricsOk, hm]]
    rfl

/-- C4 amended: the batch assessment pass yields a null struct for a row
with missing (`None`) keypoints and still processes every other row —
provided no row's geometry makes the per-row assessment raise; a row that
raises (degenerate geometry) aborts the whole pass. -/
theorem batch_skips_missing_rows (df : Df) (skeleton : SkeletonDefinition)
    (hok : ∀ r ∈ df, (compute_row_metrics skeleton r.keypoints3d).isOk = true) :
    add_pose_assessment_columns (some df) skeleton
      = Except.ok (some (df.map (fun r => (r, rowMetricsOk skeleton r)))) ∧
    (∀ r : Row, r.keypoints3d = none → rowMetricsOk skeleton r = none) := by
  constructor
  · simp only [add_pose_assessment_columns]
    rw [mapM_all_ok skeleton df hok]
    rfl
  · intro r hr
    rw [rowMetricsOk, hr]
    rfl

/-- Store for the C4 witness: a single row with missing keypoints. -/
def dfW4 : Df := [⟨0, 1, none⟩]

theorem batch_skips_missing_rows_witness :
    add_pose_assessment_columns (some dfW4) xsensSkeleton
      = Except.ok (some (dfW4.map (fun r => (r, rowMetricsOk xsensSkeleton r)))) ∧
    (∀ r : Row, r.keypoints3d = none → rowMetricsOk xsensSkeleton r = none) :=
  batch_skips_missing_rows dfW4 xsensSkeleton (by
    intro r hr
    rcases List.mem_cons.mp hr with rfl | h2
    · rfl
    · cases h2)

theorem norm_half_z : Vec3.norm ⟨0, 0, 1/2⟩ = 1/2 := by
  rw [Vec3.norm, Vec3.dot]
  rw [show ((0:ℝ) * 0 + 0 * 0 + 1/2 * (1/2)) = (1/2)^2 by norm_num]
  exact Real.sqrt_sq (by norm_num)

theorem norm_unit_z : Vec3.norm ⟨0, 0, 1⟩ = 1 := by
  rw [Vec3.norm, Vec3.dot]
  norm_num

theorem angle_between_upright : angle_between ⟨0, 0, 1/2⟩ ⟨0, 0, 1⟩ = 0 := by
  rw [angle_between, cosine_similarity, norm_half_z, norm_unit_z, Vec3.dot]
  rw [show ((0:ℝ) * 0 + 0 * 0 + 1/2 * 1) / (1/2 * 1) = 1 by norm_num]
  rw [min_self, max_eq_right (by norm_num : (-1:ℝ) ≤ 1)]
  exact Real.arccos_one

theorem norm_hipline : Vec3.norm ⟨-1/5, 0, 0⟩ = 1/5 := by
  rw [Vec3.norm, Vec3.dot]
  rw [show ((-1/5:ℝ) * (-1/5) + 0 * 0 + 0 * 0) = (1/5)^2 by norm_num]
  exact Real.sqrt_sq (by norm_num)

theorem norm_shoulderline : Vec3.norm ⟨2/5, 0, 0⟩ = 2/5 := by
  rw [Vec3.norm, Vec3.dot]
  rw [show ((2/5:ℝ) * (2/5) + 0 * 0 + 0 * 0) = (2/5)^2 by norm_num]
  exact Real.sqrt_sq (by norm_num)

theorem angle_between_opposed : angle_between ⟨-1/5, 0, 0⟩ ⟨2/5, 0, 0⟩ = Real.pi := by
  rw [angle_between, cosine_similarity, norm_hipline, norm_shoulderline, Vec3.dot]
  rw [show ((-1/5:ℝ) * (2/5) + 0 * 0 + 0 * 0) / (1/5 * (2/5)) = -1 by norm_num]
  rw [min_eq_right (by norm_num : (-1:ℝ) ≤ 1), max_self]
  exact Real.arccos_neg_one

theorem angle_signed_upright :
    angle_signed_3d ⟨0, 0, 1/2⟩ ⟨0, 0, 1⟩ (Vec3.smul (-1) ⟨1/5, 0, 0⟩) = 0 := by
  rw [angle_signed_3d, angle_between_upright, Vec3.cross]
  rw [show Vec3.mk ((0:ℝ) * 1 - 1/2 * 0) (1/2 * 0 - 0 * 1) (0 * 0 - 0 * 0)
      = ⟨0, 0, 0⟩ by norm_num]
  rw [Vec3.smul, Vec3.dot]
  rw [if_neg (by norm_num)]
  norm_num

/-- The per-frame assessment of the standing fixture: evaluation of
`make_pose_assessment`, with every plane and trunk metric computed.  The
dictionary contains no arm-elevation or reach keys. -/
theorem make_pose_standing :
    make_pose_assessment xsensSkeleton standingPose
      = Except.ok
        [("transverse_plane", AssessVal.plane ⟨⟨0, 0, 1⟩, ⟨0, 0, 1/2⟩⟩),
         ("coronal_plane", AssessVal.plane ⟨⟨0, 0, 1⟩, ⟨0, -1, 0⟩⟩),
         ("sagittal_plane", AssessVal.plane ⟨⟨0, 0, 1⟩, ⟨1/20, 0, 0⟩⟩),
         ("ground_plane", AssessVal.plane ⟨⟨0, 0, 0⟩, ⟨0, 0, 1⟩⟩),
         ("ground_coronal_plane", AssessVal.plane ⟨⟨0, 0, 1⟩, ⟨0, -1/5, 0⟩⟩),
         ("ground_sagittal_plane", AssessVal.plane ⟨⟨0, 0, 1⟩, ⟨1/5, 0, 0⟩⟩),
         ("trunk_bending", AssessVal.scalar 0),
         ("trunk_side_bending", AssessVal.scalar 0),
         ("trunk_twist", AssessVal.scalar 0)] := by
  have hjneck : jointAt standingPose xsensSkeleton.neck = ⟨0, 0, 3/2⟩ := rfl
  have hjrhip : jointAt standingPose xsensSkeleton.r_hip = ⟨-1/10, 0, 1⟩ := rfl
  have hjlhip : jointAt standingPose xsensSkeleton.l_hip = ⟨1/10, 0, 1⟩ := rfl
  have hjlsh : jointAt standingPose xsensSkeleton.l_shoulder = ⟨1/5, 0, 29/20⟩ := rfl
  have hjrsh : jointAt standingPose xsensSkeleton.r_shoulder = ⟨-1/5, 0, 29/20⟩ := rfl
  have hvhc : Vec3.smul (1 / 2) (Vec3.add ⟨-1/10, 0, 1⟩ ⟨1/10, 0, 1⟩)
      = (⟨0, 0, 1⟩ : Vec3) := by
    rw [Vec3.add, Vec3.smul]
    norm_num
  have hvu : Vec3.sub ⟨0, 0, 3/2⟩ ⟨0, 0, 1⟩ = (⟨0, 0, 1/2⟩ : Vec3) := by
    rw [Vec3.sub]
    norm_num
  have hrl : Vec3.sub ⟨-1/10, 0, 1⟩ ⟨1/10, 0, 1⟩ = (⟨-1/5, 0, 0⟩ : Vec3) := by
    rw [Vec3.sub]
    norm_num
  have hpm1 : Plane.make ⟨0, 0, 1⟩ ⟨0, 0, 1/2⟩
      = Except.ok ⟨⟨0, 0, 1⟩, ⟨0, 0, 1/2⟩⟩ := by
    rw [Plane.make, if_neg]
    rw [Vec3.zero]
    simp only [Vec3.mk.injEq, not_and]
    norm_num
  have hvf : Vec3.cross ⟨0, 0, 1/2⟩ ⟨-1/5, 0, 0⟩ = (⟨0, -1/10, 0⟩ : Vec3) := by
    rw [Vec3.cross]
    norm_num
  have hnvf : Vec3.norm ⟨0, -1/10, 0⟩ = 1/10 := by
    rw [Vec3.norm, Vec3.dot]
    rw [show ((0:ℝ) * 0 + -1/10 * (-1/10) + 0 * 0) = (1/10)^2 by norm_num]
    exact Real.sqrt_sq (by norm_num)
  have hcn : Vec3.smul (1 / Vec3.norm ⟨0, -1/10, 0⟩) ⟨0, -1/10, 0⟩
      = (⟨0, -1, 0⟩ : Vec3) := by
    rw [hnvf, Vec3.smul]
    norm_num
  have hvl : Vec3.cross ⟨0, 0, 1/2⟩ ⟨0, -1/10, 0⟩ = (⟨1/20, 0, 0⟩ : Vec3) := by
    rw [Vec3.cross]
    norm_num
  have hpm2 : Plane.make ⟨0, 0, 1⟩ ⟨1/20, 0, 0⟩
      = Except.ok ⟨⟨0, 0, 1⟩, ⟨1/20, 0, 0⟩⟩ := by
    rw [Plane.make, if_neg]
    rw [Vec3.zero]
    simp only [Vec3.mk.injEq, not_and]
    norm_num
  have hpm3 : Plane.make ⟨0, 0, 0⟩ ⟨0, 0, 1⟩
      = Except.ok ⟨⟨0, 0, 0⟩, ⟨0, 0, 1⟩⟩ := by
    rw [Plane.make, if_neg]
    rw [Vec3.zero]
    simp only [Vec3.mk.injEq, not_and]
    norm_num
  have hvgf : Vec3.cross ⟨0, 0, 1⟩ ⟨-1/5, 0, 0⟩ = (⟨0, -1/5, 0⟩ : Vec3) := by
    rw [Vec3.cross]
    norm_num
  have hpm4 : Plane.make ⟨0, 0, 1⟩ ⟨0, -1/5, 0⟩
      = Except.ok ⟨⟨0, 0, 1⟩, ⟨0, -1/5, 0⟩⟩ := by
    rw [Plane.make, if_neg]
    rw [Vec3.zero]
    simp only [Vec3.mk.injEq, not_and]
    norm_num
  have hvgl : Vec3.cross ⟨0, 0, 1⟩ ⟨0, -1/5, 0⟩ = (⟨1/5, 0, 0⟩ : Vec3) := by
    rw [Vec3.cross]
    norm_num
  have hpm5 : Plane.make ⟨0, 0, 1⟩ ⟨1/5, 0, 0⟩
      = Except.ok ⟨⟨0, 0, 1⟩, ⟨1/5, 0, 0⟩⟩ := by
    rw [Plane.make, if_neg]
    rw [Vec3.zero]
    simp only [Vec3.mk.injEq, not_and]
    norm_num
  have hproj1 : Plane.project_vector ⟨⟨0, 0, 1⟩, ⟨1/5, 0, 0⟩⟩ ⟨0, 0, 1/2⟩
      = (⟨0, 0, 1/2⟩ : Vec3) := by
    rw [Plane.project_vector, Vec3.dot, Vec3.dot, Vec3.smul, Vec3.sub]
    norm_num
  have hproj2 : Plane.project_vector ⟨⟨0, 0, 1⟩, ⟨0, -1/5, 0⟩⟩ ⟨0, 0, 1/2⟩
      = (⟨0, 0, 1/2⟩ : Vec3) := by
    rw [Plane.project_vector, Vec3.dot, Vec3.dot, Vec3.smul, Vec3.sub]
    norm_num
  have hproj3 : Plane.project_vector ⟨⟨0, 0, 0⟩, ⟨0, 0, 1⟩⟩ ⟨-1/5, 0, 0⟩
      = (⟨-1/5, 0, 0⟩ : Vec3) := by
    rw [Plane.project_vector, Vec3.dot, Vec3.dot, Vec3.smul, Vec3.sub]
    norm_num
  have hsub6 : Vec3.sub ⟨1/5, 0, 29/20⟩ ⟨-1/5, 0, 29/20⟩ = (⟨2/5, 0, 0⟩ : Vec3) := by
    rw [Vec3.sub]
    norm_num
  have hproj4 : Plane.project_vector ⟨⟨0, 0, 0⟩, ⟨0, 0, 1⟩⟩ ⟨2/5, 0, 0⟩
      = (⟨2/5, 0, 0⟩ : Vec3) := by
    rw [Plane.project_vector, Vec3.dot, Vec3.dot, Vec3.smul, Vec3.sub]
    norm_num
  have hbend : (0:ℝ) / (2 * Real.pi) * 360 = 0 := by
    simp
  have htw : Real.pi / (2 * Real.pi) * 360 - 180 = (0:ℝ) := by
    have hpi := Real.pi_ne_zero
    field_simp
    ring
  simp only [make_pose_assessment, hjneck, hjrhip, hjlhip, hjlsh, hjrsh, hvhc, hvu,
    hrl, hpm1, hvf, hcn, hvl, hpm2, hpm3, hvgf, hpm4, hvgl, hpm5, hproj1,
    angle_signed_upright, hbend, hproj2, angle_between_upright, hproj3, hsub6,
    hproj4, angle_between_opposed, htw]

/-- C5 (code_bug evidence): evaluation of `_compute_row_metrics` on the
standing, arms-down fixture.  The trunk metrics are computed (all exactly
`0`, satisfying `|trunk_bending| < 10` and `|trunk_side_bending| < 10`),
but every arm metric — `left/right_elbow_above_shoulder`,
`left/right_hand_above_head_level`, `left/right_far_reach` — is null:
`make_pose_assessment` never produces those keys, although the repository's
own tests (`test_pose_assessment.py`) assert that they exist and are
negative for this fixture. -/
theorem standing_pose_fixture_metrics :
    compute_row_metrics xsensSkeleton (some standingPose)
      = Except.ok (some
        { trunk_bending := some 0
          trunk_side_bending := some 0
          trunk_twist := some 0
          left_elbow_above_shoulder := none
          right_elbow_above_shoulder := none
          left_hand_above_head_level := none
          right_hand_above_head_level := none
          left_far_reach := none
          right_far_reach := none }) := by
  simp only [compute_row_metrics]
  rw [make_pose_standing]
  rfl

/-! ### C9 — `rotation_matrix_to_quaternion` from `dev/ui/zed/zed_body_tracker.py` -/

/-- A 3×3 real matrix, row-major (`R[i, j]` is `mIJ`). -/
structure Mat3 where
  m00 : ℝ
  m01 : ℝ
  m02 : ℝ
  m10 : ℝ
  m11 : ℝ
  m12 : ℝ
  m20 : ℝ
  m21 : ℝ
  m22 : ℝ

/-- Matrix product. -/
def Mat3.mul (A B : Mat3) : Mat3 :=
  ⟨A.m00 * B.m00 + A.m01 * B.m10 + A.m02 * B.m20,
   A.m00 * B.m01 + A.m01 * B.m11 + A.m02 * B.m21,
   A.m00 * B.m02 + A.m01 * B.m12 + A.m02 * B.m22,
   A.m10 * B.m00 + A.m11 * B.m10 + A.m12 * B.m20,
   A.m10 * B.m01 + A.m11 * B.m11 + A.m12 * B.m21,
   A.m10 * B.m02 + A.m11 * B.m12 + A.m12 * B.m22,
   A.m20 * B.m00 + A.m21 * B.m10 + A.m22 * B.m20,
   A.m20 * B.m01 + A.m21 * B.m11 + A.m22 * B.m21,
   A.m20 * B.m02 + A.m21 * B.m12 + A.m22 * B.m22⟩

/-- Transpose. -/
def Mat3.transpose (A : Mat3) : Mat3 :=
  ⟨A.m00, A.m10, A.m20, A.m01, A.m11, A.m21, A.m02, A.m12, A.m22⟩

/-- Identity matrix. -/
def Mat3.id : Mat3 := ⟨1, 0, 0, 0, 1, 0, 0, 0, 1⟩

/-- Determinant. -/
def Mat3.det (A : Mat3) : ℝ :=
  A.m00 * (A.m11 * A.m22 - A.m12 * A.m21)
    - A.m01 * (A.m10 * A.m22 - A.m12 * A.m20)
    + A.m02 * (A.m10 * A.m21 - A.m11 * A.m20)

/-- Adjugate (transpose of the cofactor matrix). -/
def Mat3.adj (A : Mat3) : Mat3 :=
  ⟨A.m11 * A.m22 - A.m12 * A.m21,
   -(A.m01 * A.m22 - A.m02 * A.m21),
   A.m01 * A.m12 - A.m02 * A.m11,
   -(A.m10 * A.m22 - A.m12 * A.m20),
   A.m00 * A.m22 - A.m02 * A.m20,
   -(A.m00 * A.m12 - A.m02 * A.m10),
   A.m10 * A.m21 - A.m11 * A.m20,
   -(A.m00 * A.m21 - A.m01 * A.m20),
   A.m00 * A.m11 - A.m01 * A.m10⟩

/-- A valid rotation matrix: orthonormal (`RᵀR = I`) with determinant 1. -/
def Mat3.IsRotation (A : Mat3) : Prop :=
  A.transpose.mul A = Mat3.id ∧ A.det = 1

/-- A quaternion `(w, x, y, z)` as returned by the converter. -/
structure Quat where
  w : ℝ
  x : ℝ
  y : ℝ
  z : ℝ

/-- Squared quaternion norm; the conversion must return a unit quaternion
(`normSq = 1`). -/
def Quat.normSq (q : Quat) : ℝ := q.w ^ 2 + q.x ^ 2 + q.y ^ 2 + q.z ^ 2

open Classical in
/-- `rotation_matrix_to_quaternion` (Shepperd branch selection), read over
the reals. -/
def rotation_matrix_to_quaternion (R : Mat3) : Quat :=
  let trace := R.m00 + R.m11 + R.m22
  if trace > 0 then
    let s := (1 / 2) / Real.sqrt (trace + 1)
    ⟨(1 / 4) / s, (R.m21 - R.m12) * s, (R.m02 - R.m20) * s, (R.m10 - R.m01) * s⟩
  else if R.m00 > R.m11 ∧ R.m00 > R.m22 then
    let s := 2 * Real.sqrt (1 + R.m00 - R.m11 - R.m22)
    ⟨(R.m21 - R.m12) / s, (1 / 4) * s, (R.m01 + R.m10) / s, (R.m02 + R.m20) / s⟩
  else if R.m11 > R.m22 then
    let s := 2 * Real.sqrt (1 + R.m11 - R.m00 - R.m22)
    ⟨(R.m02 - R.m20) / s, (R.m01 + R.m10) / s, (1 / 4) * s, (R.m12 + R.m21) / s⟩
  else
    let s := 2 * Real.sqrt (1 + R.m22 - R.m00 - R.m11)
    ⟨(R.m10 - R.m01) / s, (R.m02 + R.m20) / s, (R.m12 + R.m21) / s, (1 / 4) * s⟩

/-- Modelled from the spec: `quaternionToRotation`, the standard unit
quaternion → rotation matrix map, used to state the invertibility
requirement `quaternionToRotation(rotationToQuaternion(R)) ≈ R`. -/
def quaternion_to_rotation (q : Quat) : Mat3 :=
  ⟨1 - 2 * (q.y ^ 2 + q.z ^ 2), 2 * (q.x * q.y - q.w * q.z),
   2 * (q.x * q.z + q.w * q.y),
   2 * (q.x * q.y + q.w * q.z), 1 - 2 * (q.x ^ 2 + q.z ^ 2),
   2 * (q.y * q.z - q.w * q.x),
   2 * (q.x * q.z - q.w * q.y), 2 * (q.y * q.z + q.w * q.x),
   1 - 2 * (q.x ^ 2 + q.y ^ 2)⟩

theorem Mat3.mul_assoc (A B C : Mat3) : (A.mul B).mul C = A.mul (B.mul C) := by
  rw [Mat3.mul, Mat3.mul, Mat3.mul, Mat3.mul, Mat3.mk.injEq]
  refine ⟨?_, ?_, ?_, ?_, ?_, ?_, ?_, ?_, ?_⟩ <;> ring

theorem Mat3.mul_id (A : Mat3) : A.mul Mat3.id = A := by
  rw [Mat3.mul, Mat3.id]
  cases A
  rw [Mat3.mk.injEq]
  refine ⟨?_, ?_, ?_, ?_, ?_, ?_, ?_, ?_, ?_⟩ <;> ring

theorem Mat3.id_mul (A : Mat3) : Mat3.id.mul A = A := by
  rw [Mat3.mul, Mat3.id]
  cases A
  rw [Mat3.mk.injEq]
  refine ⟨?_, ?_, ?_, ?_, ?_, ?_, ?_, ?_, ?_⟩ <;> ring

theorem Mat3.mul_adj (A : Mat3) : A.mul A.adj = ⟨A.det, 0, 0, 0, A.det, 0, 0, 0, A.det⟩ := by
  rw [Mat3.mul, Mat3.adj, Mat3.det, Mat3.mk.injEq]
  refine ⟨?_, ?_, ?_, ?_, ?_, ?_, ?_, ?_, ?_⟩ <;> ring

/-- Orthonormality with determinant 1 forces the transpose to equal the
adjugate: every entry equals its own cofactor. -/
theorem Mat3.transpose_eq_adj {A : Mat3} (h : A.IsRotation) :
    A.transpose = A.adj := by
  obtain ⟨horth, hdet⟩ := h
  have h2 : A.mul A.adj = Mat3.id := by
    rw [Mat3.mul_adj, hdet]
    rfl
  calc A.transpose = (A.transpose).mul Mat3.id := (Mat3.mul_id _).symm
    _ = (A.transpose).mul (A.mul A.adj) := by rw [h2]
    _ = ((A.transpose).mul A).mul A.adj := (Mat3.mul_assoc _ _ _).symm
    _ = Mat3.id.mul A.adj := by rw [horth]
    _ = A.adj := Mat3.id_mul _

/-- Orthonormal rows follow from orthonormal columns and determinant 1. -/
theorem Mat3.mul_transpose_eq_id {A : Mat3} (h : A.IsRotation) :
    A.mul A.transpose = Mat3.id := by
  obtain ⟨horth, hdet⟩ := h
  rw [Mat3.transpose_eq_adj ⟨horth, hdet⟩, Mat3.mul_adj, hdet]
  rfl

theorem normSq_scaled (a b c d u : ℝ) :
    Quat.normSq ⟨a / (2 * u), b / (2 * u), c / (2 * u), d / (2 * u)⟩
      = (a ^ 2 + b ^ 2 + c ^ 2 + d ^ 2) / (4 * u ^ 2) := by
  simp only [Quat.normSq, div_pow, div_add_div_same]
  rw [show ((2 * u) ^ 2 : ℝ) = 4 * u ^ 2 from by ring]

theorem q2r_scaled (a b c d u : ℝ) (hu : u ≠ 0) :
    quaternion_to_rotation ⟨a / (2 * u), b / (2 * u), c / (2 * u), d / (2 * u)⟩
      = ⟨(2 * u ^ 2 - c ^ 2 - d ^ 2) / (2 * u ^ 2),
         (b * c - a * d) / (2 * u ^ 2),
         (b * d + a * c) / (2 * u ^ 2),
         (b * c + a * d) / (2 * u ^ 2),
         (2 * u ^ 2 - b ^ 2 - d ^ 2) / (2 * u ^ 2),
         (c * d - a * b) / (2 * u ^ 2),
         (b * d - a * c) / (2 * u ^ 2),
         (c * d + a * b) / (2 * u ^ 2),
         (2 * u ^ 2 - b ^ 2 - c ^ 2) / (2 * u ^ 2)⟩ := by
  simp only [quaternion_to_rotation, Mat3.mk.injEq]
  refine ⟨?_, ?_, ?_, ?_, ?_, ?_, ?_, ?_, ?_⟩ <;> (field_simp; ring)

set_option maxHeartbeats 3200000 in
/-- Scalar core of the Shepperd round-trip: all branch algebra, against the
orthonormality equations, the cofactor equations, and the entry bounds. -/
theorem shepperd_core (r00 r01 r02 r10 r11 r12 r20 r21 r22 : ℝ)
    (hq1 : r00 * r00 + r10 * r10 + r20 * r20 = 1)
    (hq12 : r00 * r01 + r10 * r11 + r20 * r21 = 0)
    (hq13 : r00 * r02 + r10 * r12 + r20 * r22 = 0)
    (hq2 : r01 * r01 + r11 * r11 + r21 * r21 = 1)
    (hq23 : r01 * r02 + r11 * r12 + r21 * r22 = 0)
    (hq3 : r02 * r02 + r12 * r12 + r22 * r22 = 1)
    (hr1 : r00 * r00 + r01 * r01 + r02 * r02 = 1)
    (hr12 : r00 * r10 + r01 * r11 + r02 * r12 = 0)
    (hr13 : r00 * r20 + r01 * r21 + r02 * r22 = 0)
    (hr2 : r10 * r10 + r11 * r11 + r12 * r12 = 1)
    (hr23 : r10 * r20 + r11 * r21 + r12 * r22 = 0)
    (hr3 : r20 * r20 + r21 * r21 + r22 * r22 = 1)
    (hc00 : r00 = r11 * r22 - r12 * r21)
    (hc10 : r10 = -(r01 * r22 - r02 * r21))
    (hc20 : r20 = r01 * r12 - r02 * r11)
    (hc01 : r01 = -(r10 * r22 - r12 * r20))
    (hc11 : r11 = r00 * r22 - r02 * r20)
    (hc21 : r21 = -(r00 * r12 - r02 * r10))
    (hc02 : r02 = r10 * r21 - r11 * r20)
    (hc12 : r12 = -(r00 * r21 - r01 * r20))
    (hc22 : r22 = r00 * r11 - r01 * r10) :
    (rotation_matrix_to_quaternion
        ⟨r00, r01, r02, r10, r11, r12, r20, r21, r22⟩).normSq = 1 ∧
    quaternion_to_rotation (rotation_matrix_to_quaternion
        ⟨r00, r01, r02, r10, r11, r12, r20, r21, r22⟩)
      = ⟨r00, r01, r02, r10, r11, r12, r20, r21, r22⟩ := by
  have hbnd00 : r00 ≤ 1 := by nlinarith [sq_nonneg r10, sq_nonneg r20, sq_nonneg (r00 - 1)]
  have hbnd11 : r11 ≤ 1 := by nlinarith [sq_nonneg r01, sq_nonneg r21, sq_nonneg (r11 - 1)]
  have hbnd22 : r22 ≤ 1 := by nlinarith [sq_nonneg r02, sq_nonneg r12, sq_nonneg (r22 - 1)]
  have hB : (r21 - r12) ^ 2
      = (r00 + r11 + r22 + 1) * (1 + r00 - r11 - r22) := by
    linear_combination (-2 : ℝ) * hc00 - hr1 + hq2 + hq3
  have hC : (r02 - r20) ^ 2
      = (r00 + r11 + r22 + 1) * (1 + r11 - r00 - r22) := by
    linear_combination (-2 : ℝ) * hc11 - hr2 + hq1 + hq3
  have hD : (r10 - r01) ^ 2
      = (r00 + r11 + r22 + 1) * (1 + r22 - r00 - r11) := by
    linear_combination (-2 : ℝ) * hc22 - hr3 + hq1 + hq2
  have hE : (r21 - r12) * (r02 - r20) = (r00 + r11 + r22 + 1) * (r01 + r10) := by
    linear_combination -hc10 - hc01 - hq12 - hr12
  have hF : (r21 - r12) * (r10 - r01) = (r00 + r11 + r22 + 1) * (r02 + r20) := by
    linear_combination -hc02 - hc20 - hr13 - hq13
  have hG : (r02 - r20) * (r10 - r01) = (r00 + r11 + r22 + 1) * (r12 + r21) := by
    linear_combination -hc21 - hc12 - hq23 - hr23
  have hI : (r01 + r10) ^ 2
      = (1 + r00 - r11 - r22) * (1 + r11 - r00 - r22) := by
    linear_combination (2 : ℝ) * hc22 + hq1 + hq2 - hr3
  have hJ : (r02 + r20) ^ 2
      = (1 + r00 - r11 - r22) * (1 + r22 - r00 - r11) := by
    linear_combination (2 : ℝ) * hc11 + hr1 + hr3 - hq2
  have hK : (r01 + r10) * (r02 + r20) = (1 + r00 - r11 - r22) * (r12 + r21) := by
    linear_combination hr23 + hq23 - hc12 - hc21
  have hL : (r21 - r12) * (r01 + r10) = (1 + r00 - r11 - r22) * (r02 - r20) := by
    linear_combination -hc02 + hc20 + hr13 - hq13
  have hM : (r21 - r12) * (r02 + r20) = (1 + r00 - r11 - r22) * (r10 - r01) := by
    linear_combination -hc10 + hc01 + hq12 - hr12
  have hN : (r12 + r21) ^ 2
      = (1 + r11 - r00 - r22) * (1 + r22 - r00 - r11) := by
    linear_combination (2 : ℝ) * hc00 + hr2 + hr3 - hq1
  have hO : (r01 + r10) * (r12 + r21) = (1 + r11 - r00 - r22) * (r02 + r20) := by
    linear_combination -hc20 - hc02 + hr13 + hq13
  have hP : (r02 - r20) * (r01 + r10) = (1 + r11 - r00 - r22) * (r21 - r12) := by
    linear_combination -hc21 + hc12 + hq23 - hr23
  have hQ : (r02 - r20) * (r12 + r21) = (1 + r11 - r00 - r22) * (r10 - r01) := by
    linear_combination -hc10 + hc01 + hr12 - hq12
  have hRR : (r02 + r20) * (r12 + r21) = (1 + r22 - r00 - r11) * (r01 + r10) := by
    linear_combination -hc10 - hc01 + hr12 + hq12
  have hS : (r10 - r01) * (r02 + r20) = (1 + r22 - r00 - r11) * (r21 - r12) := by
    linear_combination -hc21 + hc12 + hr23 - hq23
  have hT : (r10 - r01) * (r12 + r21) = (1 + r22 - r00 - r11) * (r02 - r20) := by
    linear_combination -hc02 + hc20 + hq13 - hr13
  simp only [rotation_matrix_to_quaternion]
  split_ifs with hb1 hb2 hb3
  · -- trace > 0
    have hpos : (0 : ℝ) < r00 + r11 + r22 + 1 := by linarith
    have hu2 : Real.sqrt (r00 + r11 + r22 + 1) ^ 2 = r00 + r11 + r22 + 1 :=
      Real.sq_sqrt (le_of_lt hpos)
    have hupos : 0 < Real.sqrt (r00 + r11 + r22 + 1) :=
      Real.sqrt_pos.mpr hpos
    generalize hgen : Real.sqrt (r00 + r11 + r22 + 1) = u at hu2 hupos ⊢
    have hune : u ≠ 0 := ne_of_gt hupos
    rw [show (1 / 4 : ℝ) / ((1 / 2) / u) = (r00 + r11 + r22 + 1) / (2 * u) from by
      rw [← hu2]; field_simp; ring]
    rw [show (r21 - r12) * ((1 / 2 : ℝ) / u) = (r21 - r12) / (2 * u) from by ring]
    rw [show (r02 - r20) * ((1 / 2 : ℝ) / u) = (r02 - r20) / (2 * u) from by ring]
    rw [show (r10 - r01) * ((1 / 2 : ℝ) / u) = (r10 - r01) / (2 * u) from by ring]
    rw [normSq_scaled, q2r_scaled _ _ _ _ _ hune]
    constructor
    · rw [div_eq_one_iff_eq (by positivity)]
      linear_combination hB + hC + hD - 4 * hu2
    · rw [Mat3.mk.injEq]
      refine ⟨?_, ?_, ?_, ?_, ?_, ?_, ?_, ?_, ?_⟩
      · rw [div_eq_iff (by positivity)]
        linear_combination -hC - hD + (2 - 2 * r00) * hu2
      · rw [div_eq_iff (by positivity)]
        linear_combination hE - 2 * r01 * hu2
      · rw [div_eq_iff (by positivity)]
        linear_combination hF - 2 * r02 * hu2
      · rw [div_eq_iff (by positivity)]
        linear_combination hE - 2 * r10 * hu2
      · rw [div_eq_iff (by positivity)]
        linear_combination -hB - hD + (2 - 2 * r11) * hu2
      · rw [div_eq_iff (by positivity)]
        linear_combination hG - 2 * r12 * hu2
      · rw [div_eq_iff (by positivity)]
        linear_combination hF - 2 * r20 * hu2
      · rw [div_eq_iff (by positivity)]
        linear_combination hG - 2 * r21 * hu2
      · rw [div_eq_iff (by positivity)]
        linear_combination -hB - hC + (2 - 2 * r22) * hu2
  · -- m00 dominant
    have hpos : (0 : ℝ) < 1 + r00 - r11 - r22 := by
      obtain ⟨h1, h2⟩ := hb2
      linarith
    have hv2 : Real.sqrt (1 + r00 - r11 - r22) ^ 2 = 1 + r00 - r11 - r22 :=
      Real.sq_sqrt (le_of_lt hpos)
    have hvpos : 0 < Real.sqrt (1 + r00 - r11 - r22) := Real.sqrt_pos.mpr hpos
    generalize hgen : Real.sqrt (1 + r00 - r11 - r22) = v at hv2 hvpos ⊢
    have hvne : v ≠ 0 := ne_of_gt hvpos
    rw [show (1 / 4 : ℝ) * (2 * v) = (1 + r00 - r11 - r22) / (2 * v) from by
      rw [← hv2]; field_simp; ring]
    rw [normSq_scaled, q2r_scaled _ _ _ _ _ hvne]
    constructor
    · rw [div_eq_one_iff_eq (by positivity)]
      linear_combination hB + hI + hJ - 4 * hv2
    · rw [Mat3.mk.injEq]
      refine ⟨?_, ?_, ?_, ?_, ?_, ?_, ?_, ?_, ?_⟩
      · rw [div_eq_iff (by positivity)]
        linear_combination -hI - hJ + (2 - 2 * r00) * hv2
      · rw [div_eq_iff (by positivity)]
        linear_combination -hM - 2 * r01 * hv2
      · rw [div_eq_iff (by positivity)]
        linear_combination hL - 2 * r02 * hv2
      · rw [div_eq_iff (by positivity)]
        linear_combination hM - 2 * r10 * hv2
      · rw [div_eq_iff (by positivity)]
        linear_combination -hJ + (2 - 2 * r11) * hv2
      · rw [div_eq_iff (by positivity)]
        linear_combination hK - 2 * r12 * hv2
      · rw [div_eq_iff (by positivity)]
        linear_combination -hL - 2 * r20 * hv2
      · rw [div_eq_iff (by positivity)]
        linear_combination hK - 2 * r21 * hv2
      · rw [div_eq_iff (by positivity)]
        linear_combination -hI + (2 - 2 * r22) * hv2
  · -- m11 dominant
    have hpos : (0 : ℝ) < 1 + r11 - r00 - r22 := by linarith
    have hw2 : Real.sqrt (1 + r11 - r00 - r22) ^ 2 = 1 + r11 - r00 - r22 :=
      Real.sq_sqrt (le_of_lt hpos)
    have hwpos : 0 < Real.sqrt (1 + r11 - r00 - r22) := Real.sqrt_pos.mpr hpos
    generalize hgen : Real.sqrt (1 + r11 - r00 - r22) = w at hw2 hwpos ⊢
    have hwne : w ≠ 0 := ne_of_gt hwpos
    rw [show (1 / 4 : ℝ) * (2 * w) = (1 + r11 - r00 - r22) / (2 * w) from by
      rw [← hw2]; field_simp; ring]
    rw [normSq_scaled, q2r_scaled _ _ _ _ _ hwne]
    constructor
    · rw [div_eq_one_iff_eq (by positivity)]
      linear_combination hC + hI + hN - 4 * hw2
    · rw [Mat3.mk.injEq]
      refine ⟨?_, ?_, ?_, ?_, ?_, ?_, ?_, ?_, ?_⟩
      · rw [div_eq_iff (by positivity)]
        linear_combination -hN + (2 - 2 * r00) * hw2
      · rw [div_eq_iff (by positivity)]
        linear_combination -hQ - 2 * r01 * hw2
      · rw [div_eq_iff (by positivity)]
        linear_combination hO - 2 * r02 * hw2
      · rw [div_eq_iff (by positivity)]
        linear_combination hQ - 2 * r10 * hw2
      · rw [div_eq_iff (by positivity)]
        linear_combination -hI - hN + (2 - 2 * r11) * hw2
      · rw [div_eq_iff (by positivity)]
        linear_combination -hP - 2 * r12 * hw2
      · rw [div_eq_iff (by positivity)]
        linear_combination hO - 2 * r20 * hw2
      · rw [div_eq_iff (by positivity)]
        linear_combination hP - 2 * r21 * hw2
      · rw [div_eq_iff (by positivity)]
        linear_combination -hI + (2 - 2 * r22) * hw2
  · -- m22 dominant
    push_neg at hb2
    have hpos : (0 : ℝ) < 1 + r22 - r00 - r11 := by
      by_cases hcc : r11 < r00
      · have h2 := hb2 hcc
        linarith
      · push_neg at hcc
        by_contra hle
        push_neg at hle
        have h00 : (1 : ℝ) ≤ r00 := by linarith
        have h11 : (1 : ℝ) ≤ r11 := by linarith
        have h22 : (1 : ℝ) ≤ r22 := by linarith
        linarith
    have hx2 : Real.sqrt (1 + r22 - r00 - r11) ^ 2 = 1 + r22 - r00 - r11 :=
      Real.sq_sqrt (le_of_lt hpos)
    have hxpos : 0 < Real.sqrt (1 + r22 - r00 - r11) := Real.sqrt_pos.mpr hpos
    generalize hgen : Real.sqrt (1 + r22 - r00 - r11) = p at hx2 hxpos ⊢
    have hxne : p ≠ 0 := ne_of_gt hxpos
    rw [show (1 / 4 : ℝ) * (2 * p) = (1 + r22 - r00 - r11) / (2 * p) from by
      rw [← hx2]; field_simp; ring]
    rw [normSq_scaled, q2r_scaled _ _ _ _ _ hxne]
    constructor
    · rw [div_eq_one_iff_eq (by positivity)]
      linear_combination hD + hJ + hN - 4 * hx2
    · rw [Mat3.mk.injEq]
      refine ⟨?_, ?_, ?_, ?_, ?_, ?_, ?_, ?_, ?_⟩
      · rw [div_eq_iff (by positivity)]
        linear_combination -hN + (2 - 2 * r00) * hx2
      · rw [div_eq_iff (by positivity)]
        linear_combination hRR - 2 * r01 * hx2
      · rw [div_eq_iff (by positivity)]
        linear_combination hT - 2 * r02 * hx2
      · rw [div_eq_iff (by positivity)]
        linear_combination hRR - 2 * r10 * hx2
      · rw [div_eq_iff (by positivity)]
        linear_combination -hJ + (2 - 2 * r11) * hx2
      · rw [div_eq_iff (by positivity)]
        linear_combination -hS - 2 * r12 * hx2
      · rw [div_eq_iff (by positivity)]
        linear_combination -hT - 2 * r20 * hx2
      · rw [div_eq_iff (by positivity)]
        linear_combination hS - 2 * r21 * hx2
      · rw [div_eq_iff (by positivity)]
        linear_combination -hJ - hN + (2 - 2 * r22) * hx2

/-- C9: for every valid rotation matrix (orthonormal, determinant 1),
`rotation_matrix_to_quaternion` returns a unit quaternion, and the standard
quaternion → rotation map carries it back to the original matrix, exactly
over the reals. -/
theorem rotation_quaternion_roundtrip (R : Mat3) (hR : R.IsRotation) :
    (rotation_matrix_to_quaternion R).normSq = 1 ∧
    quaternion_to_rotation (rotation_matrix_to_quaternion R) = R := by
  have hAAT := Mat3.mul_transpose_eq_id hR
  have hadj := Mat3.transpose_eq_adj hR
  obtain ⟨horth, hdet⟩ := hR
  obtain ⟨r00, r01, r02, r10, r11, r12, r20, r21, r22⟩ := R
  have hq1 := congrArg Mat3.m00 horth
  have hq12 := congrArg Mat3.m01 horth
  have hq13 := congrArg Mat3.m02 horth
  have hq2 := congrArg Mat3.m11 horth
  have hq23 := congrArg Mat3.m12 horth
  have hq3 := congrArg Mat3.m22 horth
  have hr1 := congrArg Mat3.m00 hAAT
  have hr12 := congrArg Mat3.m01 hAAT
  have hr13 := congrArg Mat3.m02 hAAT
  have hr2 := congrArg Mat3.m11 hAAT
  have hr23 := congrArg Mat3.m12 hAAT
  have hr3 := congrArg Mat3.m22 hAAT
  have hc00 := congrArg Mat3.m00 hadj
  have hc10 := congrArg Mat3.m01 hadj
  have hc20 := congrArg Mat3.m02 hadj
  have hc01 := congrArg Mat3.m10 hadj
  have hc11 := congrArg Mat3.m11 hadj
  have hc21 := congrArg Mat3.m12 hadj
  have hc02 := congrArg Mat3.m20 hadj
  have hc12 := congrArg Mat3.m21 hadj
  have hc22 := congrArg Mat3.m22 hadj
  simp only [Mat3.mul, Mat3.transpose, Mat3.id, Mat3.adj] at hq1 hq12 hq13 hq2 hq23 hq3
  simp only [Mat3.mul, Mat3.transpose, Mat3.id, Mat3.adj] at hr1 hr12 hr13 hr2 hr23 hr3
  simp only [Mat3.mul, Mat3.transpose, Mat3.id, Mat3.adj] at hc00 hc10 hc20 hc01 hc11 hc21 hc02 hc12 hc22
  exact shepperd_core r00 r01 r02 r10 r11 r12 r20 r21 r22 hq1 hq12 hq13 hq2
    hq23 hq3 hr1 hr12 hr13 hr2 hr23 hr3 hc00 hc10 hc20 hc01 hc11 hc21 hc02
    hc12 hc22

theorem rotation_quaternion_roundtrip_witness :
    Mat3.IsRotation Mat3.id ∧
    (rotation_matrix_to_quaternion Mat3.id).normSq = 1 ∧
    quaternion_to_rotation (rotation_matrix_to_quaternion Mat3.id) = Mat3.id := by
  have hrot : Mat3.IsRotation Mat3.id := by
    constructor
    · rw [Mat3.id, Mat3.transpose, Mat3.mul, Mat3.mk.injEq]
      norm_num
    · rw [Mat3.id, Mat3.det]
      norm_num
  exact ⟨hrot, rotation_quaternion_roundtrip Mat3.id hrot⟩

end

end Pyerg
